import Mathlib

/-!
# Drum-kit editing dialog (`EditDrumsetDialog`)

A shallow embedding of `src/palette/view/widgets/editdrumsetdialog.cpp`.

The dialog object is a record `Dialog` holding the edited drumset, the selected
row of the pitch list and the values shown by the editing controls.  Every slot
of the C++ class is a function `Dialog → Dialog`.  Qt signals are followed
explicitly: a programmatic setter that changes a value whose change signal is
connected (and not blocked) runs the connected slot.
-/

namespace Ms

/-! ## Data model -/

/-- Number of pitch slots of a drumset (`DRUM_INSTRUMENTS`, also the literal
bound of the loop in `updatePitchesList`). -/
abbrev DRUM_INSTRUMENTS : Nat := 128

/-- A MIDI pitch `0..127`: the value stored as user data of a pitch-list row. -/
abbrev Pitch := Fin DRUM_INSTRUMENTS

/-- Notehead groups (`NoteHead::Group`): the enumerators named in the dialog's
source (the `noteHeadNames` table, the two groups its comment says are left
out, and the invalid marker). -/
inductive Group where
  | HEAD_NORMAL | HEAD_CROSS | HEAD_PLUS | HEAD_XCIRCLE | HEAD_WITHX
  | HEAD_TRIANGLE_UP | HEAD_TRIANGLE_DOWN | HEAD_SLASH | HEAD_SLASHED1
  | HEAD_SLASHED2 | HEAD_DIAMOND | HEAD_DIAMOND_OLD | HEAD_CIRCLED
  | HEAD_CIRCLED_LARGE | HEAD_LARGE_ARROW | HEAD_DO | HEAD_RE | HEAD_MI
  | HEAD_FA | HEAD_LA | HEAD_TI | HEAD_CUSTOM
  | HEAD_SOL | HEAD_BREVIS_ALT | HEAD_INVALID
  deriving DecidableEq, Repr

/-- Duration classes of a notehead (`NoteHead::Type`), the four that index the
custom notehead table. -/
inductive NoteHeadType where
  | HEAD_WHOLE | HEAD_HALF | HEAD_QUARTER | HEAD_BREVIS
  deriving DecidableEq, Repr

/-- A glyph identifier (`SymId`), represented by its symbol name: the combo
boxes key their items by `Sym::id2name(id)` and read them back with
`Sym::name2id`. -/
abbrev SymId := String

/-- The identifier `Sym::name2id` yields for a name that is no symbol, such as
the empty string of an invalid `currentData()`. -/
def noSym : SymId := "noSym"

/-- The array `noteheads[]` of a drum entry, one glyph per duration class. -/
structure NoteHeads where
  whole : SymId
  half : SymId
  quarter : SymId
  brevis : SymId
  deriving DecidableEq, Repr

/-- Read `noteheads[int(t)]`. -/
def NoteHeads.get (n : NoteHeads) : NoteHeadType → SymId
  | .HEAD_WHOLE => n.whole
  | .HEAD_HALF => n.half
  | .HEAD_QUARTER => n.quarter
  | .HEAD_BREVIS => n.brevis

/-- One drum entry (`DrumInstrument`): the fields the dialog reads and writes.
`shortcut` is a `char`, with `0` for none. -/
structure DrumInstrument where
  name : String
  notehead : Group
  noteheads : NoteHeads
  line : Int
  voice : Int
  stemDirection : Int
  shortcut : Char
  deriving DecidableEq, Repr

/-- The table `_drum[DRUM_INSTRUMENTS]` of a `Drumset`. -/
abbrev Drumset := Pitch → DrumInstrument

/-- Overwrite the entry of one pitch. -/
def Drumset.set (d : Drumset) (p : Pitch) (e : DrumInstrument) : Drumset :=
  fun q => if q = p then e else d q

/-- Validity test `Drumset::isValid`.
Modelled from the spec: `libmscore/drumset.h` is not among the sources; an
entry is valid iff its name is non-empty. -/
def Drumset.isValid (d : Drumset) (p : Pitch) : Bool :=
  !(d p).name.isEmpty

/-- The entry of an unused slot.
Modelled from the spec: `Drumset::clear` is not among the sources; an unused
slot has an empty name, no shortcut and no valid notehead group. -/
def unusedDrum : DrumInstrument :=
  { name := "", notehead := .HEAD_INVALID,
    noteheads := ⟨noSym, noSym, noSym, noSym⟩,
    line := 0, voice := 0, stemDirection := 0, shortcut := Char.ofNat 0 }

/-- Reset of the whole table, `Drumset::clear`.
Modelled from the spec: resets all 128 slots to unused. -/
def Drumset.clear (_d : Drumset) : Drumset :=
  fun _ => unusedDrum

/-- Translation `mu::qtrc("drumset", ...)` of an entry name.
Modelled from the spec: translation is an external collaborator and is taken
as the identity. -/
def qtrc (s : String) : String := s

/-! ## Parts of the program the dialog uses but does not define -/

/-- What the dialog takes from the rest of the application. -/
structure Env where
  /-- Glyphs offered by each of the four custom notehead combo boxes, in item
  order (`resNoteheads`, built from the SMuFL range table). -/
  resNoteheads : List SymId
  /-- Preset resolution `Note::noteHead(0, group, type)`. -/
  noteHead : Group → NoteHeadType → SymId
  /-- Document format version constant `MSC_VERSION`. -/
  MSC_VERSION : String
  /-- Range of the `staffLine` spin box (set in the form file). -/
  staffLineMin : Int
  staffLineMax : Int
  /-- The byte the program finds at `"ABCDEFG"[i]` for an index `i` outside the
  literal: the read is out of bounds and its result belongs to the memory
  around the literal, not to the dialog. -/
  strayByte : Int → Char

/-! ## The dialog state -/

/-- Data of the preview chord built by `updateExample`. -/
structure Preview where
  pitch : Pitch
  line : Int
  headGroup : Group
  voice : Int
  stemDirection : Int
  cachedNoteheadSym : SymId
  name : String
  deriving DecidableEq, Repr

/-- Buttons of the version prompt (`IInteractive::Button`). -/
inductive Button where
  | Cancel | Ignore | NoButton
  deriving DecidableEq, Repr

/-- The dialog: edited drumset, selection, control values and the calls made on
the external collaborators. -/
structure Dialog where
  /-- Field `m_editedDrumset`. -/
  m_editedDrumset : Drumset
  /-- Field `m_instrumentKey`. -/
  m_instrumentKey : String
  /-- Row `pitchList->currentItem()`, by its pitch; `none` for a null item. -/
  currentItem : Option Pitch
  /-- Column texts of the rows of `pitchList`. -/
  itemShortcut : Pitch → String
  itemName : Pitch → String
  /-- Text of the `name` line edit. -/
  name : String
  /-- Current index of the `noteHead` combo box, `-1` for none. -/
  noteHead : Int
  noteHeadEnabled : Bool
  /-- Flag `noteHead->signalsBlocked()`. -/
  noteHeadBlocked : Bool
  /-- Checked state of `customGbox`. -/
  customGbox : Bool
  /-- Current indices of the four custom notehead combo boxes. -/
  wholeCmb : Int
  halfCmb : Int
  quarterCmb : Int
  doubleWholeCmb : Int
  staffLine : Int
  voice : Int
  stemDirection : Int
  /-- Current index of the `shortcut` combo box. -/
  shortcut : Int
  /-- Enabled state given by `setEnabledPitchControls`. -/
  pitchControlsEnabled : Bool
  /-- Content of the preview widget `drumNote`. -/
  drumNote : Option Preview
  /-- Calls of `parts()->replaceDrumset(key, drumset)`, latest first. -/
  replaced : List (String × Drumset)
  /-- Calls of `interactive()->error(...)`, latest first. -/
  errors : List String
  /-- Number of version prompts `interactive()->warning(...)` raised. -/
  warnings : Nat
  /-- Set when a null `currentItem()` has been dereferenced. -/
  fault : Bool

/-- Assignment `m_editedDrumset.drum(p) = e`. -/
def Dialog.setDrum (s : Dialog) (p : Pitch) (e : DrumInstrument) : Dialog :=
  { s with m_editedDrumset := s.m_editedDrumset.set p e }

/-! ## Combo boxes -/

/-- Index kept by `QComboBox::setCurrentIndex`: an index outside the items
leaves the box without a current item. -/
def comboIndex (count : Nat) (i : Int) : Int :=
  if 0 ≤ i ∧ i < count then i else -1

/-- Lookup `QComboBox::findData`: position of the first item carrying the
given data, `-1` when there is none. -/
def findData {α : Type} [DecidableEq α] (items : List α) (a : α) : Int :=
  if a ∈ items then (items.indexOf a : Int) else -1

/-- Lookup `QComboBox::currentData()`: the data of the current item, invalid
(`none`) when there is no current item. -/
def currentData {α : Type} (items : List α) (i : Int) : Option α :=
  if i < 0 then none else items.get? i.toNat

/-- The table `noteHeadNames`; item `k` of the `noteHead` combo box carries
`int(noteHeadNames[k])`. -/
def noteHeadNames : List Group :=
  [ .HEAD_NORMAL, .HEAD_CROSS, .HEAD_PLUS, .HEAD_XCIRCLE, .HEAD_WITHX,
    .HEAD_TRIANGLE_UP, .HEAD_TRIANGLE_DOWN, .HEAD_SLASH, .HEAD_SLASHED1,
    .HEAD_SLASHED2, .HEAD_DIAMOND, .HEAD_DIAMOND_OLD, .HEAD_CIRCLED,
    .HEAD_CIRCLED_LARGE, .HEAD_LARGE_ARROW, .HEAD_DO, .HEAD_RE, .HEAD_MI,
    .HEAD_FA, .HEAD_LA, .HEAD_TI, .HEAD_CUSTOM ]

/-- Item texts of the `shortcut` combo box.
Modelled from the spec: the form file is not among the sources; the box is the
fixed choice list A–G plus "none", the last with an empty text (the text
`valueChanged` tests with `isEmpty`). -/
def shortcutItems : List String := ["A", "B", "C", "D", "E", "F", "G", ""]

/-- Text `shortcut->currentText()`: empty when there is no current item. -/
def shortcutText (i : Int) : String :=
  (currentData shortcutItems i).getD ""

/-- The eight bytes of the literal `"ABCDEFG"`: the seven letters and the
terminating NUL. -/
def letters : List Char := ['A', 'B', 'C', 'D', 'E', 'F', 'G', Char.ofNat 0]

/-- The character `"ABCDEFG"[i]`.  The source does not test the index: for an
index outside `0..7` (the shortcut box without a current item has index -1)
the read is out of bounds and yields `env.strayByte i`. -/
def letterAt (env : Env) (i : Int) : Char :=
  if i < 0 then env.strayByte i else letters.getD i.toNat (env.strayByte i)

/-- The string `QString(QChar(c))`: one character, also for NUL. -/
def qcharString (c : Char) : String := String.singleton c

/-! ## Pitch list -/

/-- Text of the shortcut column for a stored shortcut, as `refreshPitchesList`
and `updatePitchesList` compute it. -/
def shortcutColumn (c : Char) : String :=
  if c = Char.ofNat 0 then "" else qcharString c

/-- Slot `refreshPitchesList`: every row shows its entry's shortcut and name. -/
def refreshPitchesList (s : Dialog) : Dialog :=
  { s with
    itemShortcut := fun p => shortcutColumn (s.m_editedDrumset p).shortcut
    itemName := fun p => qtrc (s.m_editedDrumset p).name }

/-! ## shortcutChanged -/

/-- One pass of the loop body of `shortcutChanged` for index `i`. -/
def clearConflictStep (pitch : Pitch) (sc : Char) (d : Drumset) (i : Pitch) : Drumset :=
  if i = pitch then d
  else if (d i).shortcut = sc then d.set i { d i with shortcut := Char.ofNat 0 }
  else d

/-- The loop `for (int i = 0; i < DRUM_INSTRUMENTS; ++i)` of `shortcutChanged`
("remove conflicting shortcuts"). -/
def clearConflicts (pitch : Pitch) (sc : Char) (d : Drumset) : Drumset :=
  (List.finRange DRUM_INSTRUMENTS).foldl (clearConflictStep pitch sc) d

/-- Slot `shortcutChanged`. -/
def shortcutChanged (env : Env) (s : Dialog) : Dialog :=
  match s.currentItem with
  | none => s
  | some pitch =>
    let sc : Char := if s.shortcut = 7 then Char.ofNat 0 else letterAt env s.shortcut
    let s1 : Dialog :=
      if qcharString (s.m_editedDrumset pitch).shortcut ≠ shortcutText s.shortcut then
        let d1 := clearConflicts pitch sc s.m_editedDrumset
        let d2 := d1.set pitch { d1 pitch with shortcut := sc }
        let txt := if s.shortcut = 7 then "" else shortcutText s.shortcut
        { s with
          m_editedDrumset := d2
          itemShortcut := fun p => if p = pitch then txt else s.itemShortcut p }
      else s
    refreshPitchesList s1

/-! ## Preview -/

/-- Glyph `Sym::name2id(cmb->currentData().toString())` of a custom notehead
combo box with current index `i`. -/
def comboSym (env : Env) (i : Int) : SymId :=
  (currentData env.resNoteheads i).getD noSym

/-- Slot `updateExample`.  The row is dereferenced without a null test. -/
def updateExample (env : Env) (s : Dialog) : Dialog :=
  let s := { s with drumNote := none }
  match s.currentItem with
  | none => { s with fault := true }
  | some pitch =>
    if !s.m_editedDrumset.isValid pitch then s
    else
      let e := s.m_editedDrumset pitch
      let chord : Preview :=
        { pitch := pitch, line := e.line, headGroup := e.notehead, voice := e.voice,
          stemDirection := e.stemDirection,
          cachedNoteheadSym := comboSym env s.quarterCmb,
          name := qtrc e.name }
      { s with drumNote := some chord }

/-- Slot `customQuarterChanged`. -/
def customQuarterChanged (env : Env) (s : Dialog) : Dialog :=
  updateExample env s

/-- Call `quarterCmb->setCurrentIndex(i)`; a change of index emits
`currentIndexChanged`, connected to `customQuarterChanged`. -/
def quarterCmb_setCurrentIndex (env : Env) (i : Int) (s : Dialog) : Dialog :=
  let j := comboIndex env.resNoteheads.length i
  if s.quarterCmb = j then s
  else customQuarterChanged env { s with quarterCmb := j }

/-! ## Notehead controls -/

/-- Function `fillCustomNoteheadsDataFromComboboxes`. -/
def fillCustomNoteheadsDataFromComboboxes (env : Env) (pitch : Pitch) (s : Dialog) : Dialog :=
  let s := s.setDrum pitch { s.m_editedDrumset pitch with notehead := .HEAD_CUSTOM }
  let s := s.setDrum pitch { s.m_editedDrumset pitch with
    noteheads := { (s.m_editedDrumset pitch).noteheads with whole := comboSym env s.wholeCmb } }
  let s := s.setDrum pitch { s.m_editedDrumset pitch with
    noteheads := { (s.m_editedDrumset pitch).noteheads with quarter := comboSym env s.quarterCmb } }
  let s := s.setDrum pitch { s.m_editedDrumset pitch with
    noteheads := { (s.m_editedDrumset pitch).noteheads with half := comboSym env s.halfCmb } }
  s.setDrum pitch { s.m_editedDrumset pitch with
    noteheads :=
      { (s.m_editedDrumset pitch).noteheads with brevis := comboSym env s.doubleWholeCmb } }

/-- The four `setCurrentIndex(quarterCmb->findData(Sym::id2name(..)))` calls
shared by the two branches of `fillNoteheadsComboboxes`, for the glyphs
`g t`. -/
def setNoteheadCombos (env : Env) (g : NoteHeadType → SymId) (s : Dialog) : Dialog :=
  let n := env.resNoteheads.length
  let s := { s with wholeCmb := comboIndex n (findData env.resNoteheads (g .HEAD_WHOLE)) }
  let s := { s with halfCmb := comboIndex n (findData env.resNoteheads (g .HEAD_HALF)) }
  let s := quarterCmb_setCurrentIndex env (findData env.resNoteheads (g .HEAD_QUARTER)) s
  { s with doubleWholeCmb := comboIndex n (findData env.resNoteheads (g .HEAD_BREVIS)) }

/-- Function `fillNoteheadsComboboxes`. -/
def fillNoteheadsComboboxes (env : Env) (customGroup : Bool) (pitch : Pitch) (s : Dialog) :
    Dialog :=
  if customGroup then
    setNoteheadCombos env (s.m_editedDrumset pitch).noteheads.get s
  else
    let group := (s.m_editedDrumset pitch).notehead
    if group = .HEAD_INVALID then s
    else setNoteheadCombos env (env.noteHead group) s

/-- Call `noteHead->setCurrentIndex(i)`; a change of index emits
`currentIndexChanged` unless the box blocks its signals, and the signal runs
the slot `vc` (`valueChanged`). -/
def noteHead_setCurrentIndex (vc : Dialog → Dialog) (i : Int) (s : Dialog) : Dialog :=
  let j := comboIndex noteHeadNames.length i
  if s.noteHead = j then s
  else
    let s := { s with noteHead := j }
    if s.noteHeadBlocked then s else vc s

/-- Slot `customGboxToggled`, with `vc` the slot behind the `noteHead` box. -/
def customGboxToggledWith (vc : Dialog → Dialog) (checked : Bool) (s : Dialog) : Dialog :=
  let s := { s with noteHeadEnabled := !checked }
  if checked then noteHead_setCurrentIndex vc (findData noteHeadNames .HEAD_CUSTOM) s
  else noteHead_setCurrentIndex vc (findData noteHeadNames .HEAD_NORMAL) s

/-- Call `customGbox->setChecked(b)`; a change emits `toggled`, connected to
`customGboxToggled`. -/
def customGbox_setChecked (vc : Dialog → Dialog) (b : Bool) (s : Dialog) : Dialog :=
  if s.customGbox = b then s
  else customGboxToggledWith vc b { s with customGbox := b }

/-- Function `setCustomNoteheadsGUIEnabled`. -/
def setCustomNoteheadsGUIEnabledWith (vc : Dialog → Dialog) (enabled : Bool) (s : Dialog) :
    Dialog :=
  let s := customGbox_setChecked vc enabled s
  let s := { s with noteHeadEnabled := !enabled }
  if enabled then noteHead_setCurrentIndex vc (findData noteHeadNames .HEAD_CUSTOM) s
  else s

/-! ## valueChanged -/

/-- The group `NoteHead::Group(noteHead->currentData().toInt())`: the group of
the current item, and `Group(0)`, the first enumerator, when the data is
invalid. -/
def groupOfData (v : Option Group) : Group :=
  v.getD .HEAD_NORMAL

/-- The shortcut lines of `valueChanged`: the text of the shortcut box is
written into the entry when it differs from the stored shortcut;
`at(0).toLatin1()` is the first character of the text. -/
def commitShortcutText (pitch : Pitch) (s : Dialog) : Dialog :=
  if qcharString (s.m_editedDrumset pitch).shortcut ≠ shortcutText s.shortcut then
    if (shortcutText s.shortcut).isEmpty then
      s.setDrum pitch { s.m_editedDrumset pitch with shortcut := Char.ofNat 0 }
    else
      s.setDrum pitch { s.m_editedDrumset pitch with
        shortcut := (shortcutText s.shortcut).get 0 }
  else s

/-- Body of `valueChanged`; `vc` is the slot run when the body changes the
index of the `noteHead` box (the body itself, re-entered). -/
def valueChangedBody (env : Env) (vc : Dialog → Dialog) (s : Dialog) : Dialog :=
  match s.currentItem with
  | none => s
  | some pitch =>
    let s := s.setDrum pitch { s.m_editedDrumset pitch with name := s.name }
    let s :=
      if s.customGbox || s.noteHead == findData noteHeadNames .HEAD_CUSTOM then
        setCustomNoteheadsGUIEnabledWith vc true
          (fillCustomNoteheadsDataFromComboboxes env pitch s)
      else
        let s := s.setDrum pitch { s.m_editedDrumset pitch with
          notehead := groupOfData (currentData noteHeadNames s.noteHead) }
        let s := fillNoteheadsComboboxes env false pitch s
        setCustomNoteheadsGUIEnabledWith vc false s
    let s := s.setDrum pitch { s.m_editedDrumset pitch with line := s.staffLine }
    let s := s.setDrum pitch { s.m_editedDrumset pitch with voice := s.voice }
    let s := s.setDrum pitch { s.m_editedDrumset pitch with stemDirection := s.stemDirection }
    let s := commitShortcutText pitch s
    let s := updateExample env s
    { s with replaced := (s.m_instrumentKey, s.m_editedDrumset) :: s.replaced }

/-- Slot `valueChanged` with a bound on the depth of re-entry through the
`noteHead` signal; at depth 0 the signal is not followed. -/
def valueChangedFuel (env : Env) : Nat → Dialog → Dialog
  | 0 => fun s => s
  | n + 1 => valueChangedBody env (valueChangedFuel env n)

/-- Slot `valueChanged`.  The body re-enters itself at most once (see
`valueChangedFuel_stable`), so depth 2 is the slot itself. -/
def valueChanged (env : Env) (s : Dialog) : Dialog :=
  valueChangedFuel env 2 s

/-- Slot `customGboxToggled`. -/
def customGboxToggled (env : Env) (checked : Bool) (s : Dialog) : Dialog :=
  customGboxToggledWith (valueChanged env) checked s

/-- Function `setCustomNoteheadsGUIEnabled`. -/
def setCustomNoteheadsGUIEnabled (env : Env) (enabled : Bool) (s : Dialog) : Dialog :=
  setCustomNoteheadsGUIEnabledWith (valueChanged env) enabled s

/-- Slot `apply`. -/
def apply (env : Env) (s : Dialog) : Dialog :=
  valueChanged env s

/-! ## nameChanged -/

/-- Function `setEnabledPitchControls`. -/
def setEnabledPitchControls (enable : Bool) (s : Dialog) : Dialog :=
  { s with noteHeadEnabled := enable, pitchControlsEnabled := enable }

/-- Slot `nameChanged`. -/
def nameChanged (env : Env) (n : String) (s : Dialog) : Dialog :=
  let s :=
    match s.currentItem with
    | none => s
    | some pitch =>
      let s := { s with itemName := fun p => if p = pitch then n else s.itemName p }
      if !n.isEmpty then
        if !s.m_editedDrumset.isValid pitch then
          noteHead_setCurrentIndex (valueChanged env) 0 s
        else s
      else s.setDrum pitch { s.m_editedDrumset pitch with name := "" }
  setEnabledPitchControls (!n.isEmpty) s

/-- Call `name->setText(t)`; a change of text emits `textChanged`, connected
to `nameChanged`. -/
def name_setText (env : Env) (t : String) (s : Dialog) : Dialog :=
  if s.name = t then s else nameChanged env t { s with name := t }

/-- Call `shortcut->setCurrentIndex(i)`; a change of index emits
`currentIndexChanged`, connected to `shortcutChanged`. -/
def shortcut_setCurrentIndex (env : Env) (i : Int) (s : Dialog) : Dialog :=
  let j := comboIndex shortcutItems.length i
  if s.shortcut = j then s else shortcutChanged env { s with shortcut := j }

/-! ## itemChanged -/

/-- Number of items of the `voice` combo box.
Modelled from the spec: the form file is not among the sources; voices are
the indices 0–3. -/
def voiceCount : Nat := 4

/-- Number of items of the `stemDirection` combo box.
Modelled from the spec: the form file is not among the sources; the
directions are Auto, Up and Down. -/
def stemDirectionCount : Nat := 3

/-- Value kept by `staffLine->setValue(v)`: a spin box bounds the value by
its range. -/
def spinValue (env : Env) (v : Int) : Int :=
  max env.staffLineMin (min env.staffLineMax v)

/-- First block of `itemChanged` (`if (previous) ...`): the controls are
written into the entry of the row that was current before. -/
def commitPrevious (env : Env) (pitch : Pitch) (s : Dialog) : Dialog :=
  let s := s.setDrum pitch { s.m_editedDrumset pitch with name := s.name }
  let s :=
    if s.customGbox then fillCustomNoteheadsDataFromComboboxes env pitch s
    else
      match currentData noteHeadNames s.noteHead with
      | some g => s.setDrum pitch { s.m_editedDrumset pitch with notehead := g }
      | none => s
  let s := s.setDrum pitch { s.m_editedDrumset pitch with line := s.staffLine }
  let s := s.setDrum pitch { s.m_editedDrumset pitch with voice := s.voice }
  let s :=
    if s.shortcut = 7 then
      s.setDrum pitch { s.m_editedDrumset pitch with shortcut := Char.ofNat 0 }
    else
      s.setDrum pitch { s.m_editedDrumset pitch with shortcut := letterAt env s.shortcut }
  let s := s.setDrum pitch { s.m_editedDrumset pitch with stemDirection := s.stemDirection }
  { s with
    itemName := fun p => if p = pitch then qtrc (s.m_editedDrumset pitch).name
                         else s.itemName p }

/-- Second block of `itemChanged`: the controls are filled from the entry of
the new current row, with the signals of `staffLine`, `voice`,
`stemDirection` and `noteHead` blocked. -/
def populate (env : Env) (pitch : Pitch) (s : Dialog) : Dialog :=
  let s := { s with noteHeadBlocked := true }
  let s := name_setText env (qtrc (s.m_editedDrumset pitch).name) s
  let s := { s with staffLine := spinValue env (s.m_editedDrumset pitch).line }
  let s := { s with voice := comboIndex voiceCount (s.m_editedDrumset pitch).voice }
  let s := { s with
    stemDirection := comboIndex stemDirectionCount (s.m_editedDrumset pitch).stemDirection }
  let nh := (s.m_editedDrumset pitch).notehead
  let isCustomGroup : Bool := nh = .HEAD_CUSTOM
  let s :=
    if s.m_editedDrumset.isValid pitch then
      setCustomNoteheadsGUIEnabled env isCustomGroup s
    else s
  let s := noteHead_setCurrentIndex (valueChanged env) (findData noteHeadNames nh) s
  let s := fillNoteheadsComboboxes env isCustomGroup pitch s
  let s :=
    if (s.m_editedDrumset pitch).shortcut = Char.ofNat 0 then
      shortcut_setCurrentIndex env 7 s
    else
      shortcut_setCurrentIndex env
        (((s.m_editedDrumset pitch).shortcut.toNat : Int) - (('A').toNat : Int)) s
  let s := { s with noteHeadBlocked := false }
  updateExample env s

/-- Slot `itemChanged(current, previous)`. -/
def itemChanged (env : Env) (current previous : Option Pitch) (s : Dialog) : Dialog :=
  let s :=
    match previous with
    | some pitch => commitPrevious env pitch s
    | none => s
  match current with
  | none => s
  | some pitch => populate env pitch s

/-- The pitch list makes row `current` its current row: the signal
`currentItemChanged(current, previous)` reaches `itemChanged` with the new
row already current. -/
def selectionChanged (env : Env) (current : Option Pitch) (s : Dialog) : Dialog :=
  itemChanged env current s.currentItem { s with currentItem := current }

/-- Function `updatePitchesList`.  `pitchList->clear()` takes the current row
away: the list sends `currentItemChanged(nullptr, previous)` to `itemChanged`,
which writes the controls into the entry of the row that was current (with no
current row nothing is sent, and `selectionChanged` does nothing).  Then the
rows are built again from the drumset; the new list has no current row. -/
def updatePitchesList (env : Env) (s : Dialog) : Dialog :=
  let s := selectionChanged env none s
  { s with
    currentItem := none
    itemShortcut := fun p => shortcutColumn (s.m_editedDrumset p).shortcut
    itemName := fun p => qtrc (s.m_editedDrumset p).name }

/-! ## Drumset files -/

/-- The notehead part of a per-pitch record: the group, or the four custom
glyphs. -/
inductive RecordHead where
  | group (g : Group)
  | custom (n : NoteHeads)
  deriving DecidableEq, Repr

/-- One per-pitch record of a drumset file.
Modelled from the spec: `Drumset::save` and `Drumset::load` are not among the
sources; a record carries pitch, name, noteheadGroup (or the four custom
glyph identifiers), staffLine, voice, stemDirection, shortcut. -/
structure DrumRecord where
  pitch : Pitch
  name : String
  head : RecordHead
  line : Int
  voice : Int
  stemDirection : Int
  shortcut : Char
  deriving DecidableEq, Repr

/-- Start tag of an element as the reader reports it: its name, its `version`
attribute (empty when absent) and, for a `Drum` element, the record
`Drumset::load` reads from it. -/
structure StartElement where
  name : String
  version : String
  record : Option DrumRecord
  deriving DecidableEq, Repr

/-- Tokens of a file as `readNextStartElement` sees them: start tags and end
tags. -/
inductive Token where
  | startElement (e : StartElement)
  | endElement
  deriving DecidableEq, Repr

/-- The record written for the entry of pitch `p`.
Modelled from the spec: see `DrumRecord`. -/
def recordOf (d : Drumset) (p : Pitch) : DrumRecord :=
  { pitch := p, name := (d p).name,
    head := if (d p).notehead = .HEAD_CUSTOM then .custom (d p).noteheads
            else .group (d p).notehead,
    line := (d p).line, voice := (d p).voice, stemDirection := (d p).stemDirection,
    shortcut := (d p).shortcut }

/-- Records written by `Drumset::save`.
Modelled from the spec: one record per valid entry, unused slots omitted. -/
def Drumset.save (d : Drumset) : List DrumRecord :=
  ((List.finRange DRUM_INSTRUMENTS).filter (fun p => d.isValid p)).map (recordOf d)

/-- Effect of `Drumset::load` on the table for one record.
Modelled from the spec: the record's fields become the entry of its pitch. -/
def Drumset.load (d : Drumset) (r : DrumRecord) : Drumset :=
  d.set r.pitch
    { name := r.name,
      notehead := (match r.head with
        | .group g => g
        | .custom _ => .HEAD_CUSTOM),
      noteheads := (match r.head with
        | .group _ => (d r.pitch).noteheads
        | .custom n => n),
      line := r.line, voice := r.voice, stemDirection := r.stemDirection,
      shortcut := r.shortcut }

/-- Where the two nested `while (e.readNextStartElement())` loops of `load`
stand: in the outer loop, or in the inner loop of a `museScore` element with
`skip` enclosing elements still to be closed (an element consumed by
`Drumset::load` or skipped by `e.unknown()`). -/
inductive ReadMode where
  | outer
  | inner (skip : Nat)
  deriving DecidableEq, Repr

/-- The loops of `load` over the tokens that remain.  `readNextStartElement`
yields true at a start tag and false at an end tag or at the end of input.
`answer k` is the button the user presses at the `k`-th version prompt. -/
def loadLoop (env : Env) (answer : Nat → Button) : ReadMode → Dialog → List Token → Dialog
  | .outer, s, [] => updatePitchesList env s
  | .outer, s, .endElement :: _ => updatePitchesList env s
  | .outer, s, .startElement e :: rest =>
    if e.name = "museScore" then
      if e.version ≠ env.MSC_VERSION then
        let result := answer s.warnings
        let s := { s with warnings := s.warnings + 1 }
        if result ≠ .Ignore then s
        else loadLoop env answer (.inner 0) s rest
      else loadLoop env answer (.inner 0) s rest
    else loadLoop env answer .outer s rest
  | .inner _, s, [] => updatePitchesList env s
  | .inner 0, s, .endElement :: rest => loadLoop env answer .outer s rest
  | .inner 0, s, .startElement e :: rest =>
    if e.name = "Drum" then
      match e.record with
      | some r =>
        loadLoop env answer (.inner 1) { s with m_editedDrumset := s.m_editedDrumset.load r } rest
      | none => loadLoop env answer (.inner 1) s rest
    else loadLoop env answer (.inner 1) s rest
  | .inner (k + 1), s, .endElement :: rest => loadLoop env answer (.inner k) s rest
  | .inner (k + 1), s, .startElement _ :: rest => loadLoop env answer (.inner (k + 2)) s rest

/-- Slot `load`.  `fname` is the path the file picker returns, `file` the
tokens of that file, `none` when it cannot be opened. -/
def load (env : Env) (fname : String) (file : Option (List Token)) (answer : Nat → Button)
    (s : Dialog) : Dialog :=
  if fname.isEmpty then s
  else
    match file with
    | none => s
    | some tokens =>
      let s := { s with m_editedDrumset := s.m_editedDrumset.clear }
      loadLoop env answer .outer s tokens

/-- Tokens `save` writes for a drumset: the `museScore` container tagged with
`MSC_VERSION` around the records of `Drumset::save`. -/
def fileOf (env : Env) (d : Drumset) : List Token :=
  .startElement { name := "museScore", version := env.MSC_VERSION, record := none } ::
    (d.save.flatMap fun r =>
      [Token.startElement { name := "Drum", version := "", record := some r },
       Token.endElement]) ++
    [Token.endElement]

/-- Slot `save`.  `openOk` tells whether the target file opens for writing,
`writeOk` whether the file reports no error after writing.  The result pairs
the dialog with the text written, `none` when nothing is written. -/
def save (env : Env) (fname : String) (openOk writeOk : Bool) (s : Dialog) :
    Dialog × Option (List Token) :=
  if fname.isEmpty then (s, none)
  else if !openOk then ({ s with errors := "Open File" :: s.errors }, none)
  else
    let s := valueChanged env s
    let text := fileOf env s.m_editedDrumset
    let s := if !writeOk then { s with errors := "Write Drumset" :: s.errors } else s
    (s, some text)

/-! ## Shortcut uniqueness: definitions -/

/-- No letter is held by two pitches: two pitches with the same shortcut,
other than none, are the same pitch. -/
def UniqueShortcuts (d : Drumset) : Prop :=
  ∀ i j : Pitch, (d i).shortcut = (d j).shortcut → (d i).shortcut ≠ Char.ofNat 0 → i = j

/-- A drumset with every slot unused. -/
def emptyDrumset : Drumset := fun _ => unusedDrum

/-- One shortcut assignment of a session: the row selected and the index the
user picks in the `shortcut` box (0–6 for A–G, 7 for none), followed by the
slot `shortcutChanged`. -/
def assignShortcut (env : Env) (p : Pitch) (k : Fin 8) (s : Dialog) : Dialog :=
  shortcutChanged env { s with currentItem := some p, shortcut := (k.val : Int) }

/-- The drumsets a session goes through under a sequence of shortcut
assignments, one per call. -/
def shortcutTrace (env : Env) : List (Pitch × Fin 8) → Dialog → List Drumset
  | [], _ => []
  | (p, k) :: rest, s =>
    (assignShortcut env p k s).m_editedDrumset ::
      shortcutTrace env rest (assignShortcut env p k s)

/-- Relation between the dialog before and after a step that calls no
collaborator and keeps the selection, the signal blocking of `noteHead`, the
absence of duplicate shortcut letters and the names of the rows that are not
current. -/
def Silent (s t : Dialog) : Prop :=
  t.noteHeadBlocked = s.noteHeadBlocked ∧ t.replaced = s.replaced ∧
  t.errors = s.errors ∧ t.warnings = s.warnings ∧ t.currentItem = s.currentItem ∧
  t.m_instrumentKey = s.m_instrumentKey ∧
  (UniqueShortcuts s.m_editedDrumset → UniqueShortcuts t.m_editedDrumset) ∧
  (∀ q : Pitch, s.currentItem ≠ some q →
    (t.m_editedDrumset q).name = (s.m_editedDrumset q).name)

/-! ## Closed forms of the value-changed commit -/

/-- The shortcut `valueChanged` leaves in an entry that held `c`, with the
shortcut box on index `i`. -/
def committedShortcut (i : Int) (c : Char) : Char :=
  if qcharString c ≠ shortcutText i then
    if (shortcutText i).isEmpty then Char.ofNat 0 else (shortcutText i).get 0
  else c

/-- The entry `valueChanged` leaves for the selected pitch in custom mode. -/
def customEntry (env : Env) (s : Dialog) (e : DrumInstrument) : DrumInstrument :=
  { name := s.name, notehead := .HEAD_CUSTOM,
    noteheads :=
      { whole := comboSym env s.wholeCmb, half := comboSym env s.halfCmb,
        quarter := comboSym env s.quarterCmb, brevis := comboSym env s.doubleWholeCmb },
    line := s.staffLine, voice := s.voice, stemDirection := s.stemDirection,
    shortcut := committedShortcut s.shortcut e.shortcut }

/-- The entry `valueChanged` leaves for the selected pitch in preset mode. -/
def presetEntry (s : Dialog) (e : DrumInstrument) : DrumInstrument :=
  { name := s.name, notehead := groupOfData (currentData noteHeadNames s.noteHead),
    noteheads := e.noteheads,
    line := s.staffLine, voice := s.voice, stemDirection := s.stemDirection,
    shortcut := committedShortcut s.shortcut e.shortcut }

/-- The preview `updateExample` builds for pitch `p` of drumset `d` with the
quarter box on index `q`. -/
def previewOf (env : Env) (d : Drumset) (p : Pitch) (q : Int) : Option Preview :=
  if !d.isValid p then none
  else some
    { pitch := p, line := (d p).line, headGroup := (d p).notehead, voice := (d p).voice,
      stemDirection := (d p).stemDirection, cachedNoteheadSym := comboSym env q,
      name := qtrc (d p).name }

/-- The dialog after `valueChanged` in custom mode, up to the list of pushes. -/
def customResult (env : Env) (p : Pitch) (s : Dialog) : Dialog :=
  { s with
    m_editedDrumset := s.m_editedDrumset.set p (customEntry env s (s.m_editedDrumset p))
    customGbox := true
    noteHeadEnabled := false
    noteHead := findData noteHeadNames .HEAD_CUSTOM
    drumNote :=
      previewOf env (s.m_editedDrumset.set p (customEntry env s (s.m_editedDrumset p))) p
        s.quarterCmb
    replaced :=
      (s.m_instrumentKey,
        s.m_editedDrumset.set p (customEntry env s (s.m_editedDrumset p))) :: s.replaced }

/-- The dialog after `valueChanged` in preset mode. -/
def presetResult (env : Env) (p : Pitch) (s : Dialog) : Dialog :=
  let g := env.noteHead (groupOfData (currentData noteHeadNames s.noteHead))
  let n := env.resNoteheads.length
  { s with
    m_editedDrumset := s.m_editedDrumset.set p (presetEntry s (s.m_editedDrumset p))
    wholeCmb := comboIndex n (findData env.resNoteheads (g .HEAD_WHOLE))
    halfCmb := comboIndex n (findData env.resNoteheads (g .HEAD_HALF))
    quarterCmb := comboIndex n (findData env.resNoteheads (g .HEAD_QUARTER))
    doubleWholeCmb := comboIndex n (findData env.resNoteheads (g .HEAD_BREVIS))
    noteHeadEnabled := true
    drumNote :=
      previewOf env (s.m_editedDrumset.set p (presetEntry s (s.m_editedDrumset p))) p
        (comboIndex n (findData env.resNoteheads (g .HEAD_QUARTER)))
    replaced :=
      (s.m_instrumentKey,
        s.m_editedDrumset.set p (presetEntry s (s.m_editedDrumset p))) :: s.replaced }

/-- The character the selection-change commit writes for index `i` of the
shortcut box. -/
def shortcutLetter (env : Env) (i : Int) : Char :=
  if i = 7 then Char.ofNat 0 else letterAt env i

/-- The entry the first block of `itemChanged` leaves for the previous row. -/
def previousEntry (env : Env) (s : Dialog) (e : DrumInstrument) : DrumInstrument :=
  { name := s.name,
    notehead :=
      if s.customGbox then .HEAD_CUSTOM
      else (currentData noteHeadNames s.noteHead).getD e.notehead,
    noteheads :=
      if s.customGbox then
        { whole := comboSym env s.wholeCmb, half := comboSym env s.halfCmb,
          quarter := comboSym env s.quarterCmb, brevis := comboSym env s.doubleWholeCmb }
      else e.noteheads,
    line := s.staffLine, voice := s.voice, stemDirection := s.stemDirection,
    shortcut := shortcutLetter env s.shortcut }

/-- Field-wise equality of two entries as a drumset file carries them: name,
notehead group, the four custom glyphs when the group is custom, staff line,
voice, stem direction and shortcut. -/
def SameEntry (a b : DrumInstrument) : Prop :=
  a.name = b.name ∧ a.notehead = b.notehead ∧
  (b.notehead = .HEAD_CUSTOM → a.noteheads = b.noteheads) ∧
  a.line = b.line ∧ a.voice = b.voice ∧ a.stemDirection = b.stemDirection ∧
  a.shortcut = b.shortcut

/-- The entry `Drumset::load` writes for the record of pitch `p` of `d`, over
an entry `x` already in the table. -/
def loadedEntry (d : Drumset) (p : Pitch) (x : DrumInstrument) : DrumInstrument :=
  { name := (d p).name, notehead := (d p).notehead,
    noteheads := if (d p).notehead = .HEAD_CUSTOM then (d p).noteheads else x.noteheads,
    line := (d p).line, voice := (d p).voice, stemDirection := (d p).stemDirection,
    shortcut := (d p).shortcut }

/-- The glyph a drum entry resolves to for a duration class.
Modelled from the spec: the Notehead Resolver is not among the sources; in
preset mode the glyph is looked up from the static table keyed by (group,
duration), in custom mode the stored glyph is returned verbatim. -/
def resolve (env : Env) (e : DrumInstrument) (t : NoteHeadType) : SymId :=
  if e.notehead = .HEAD_CUSTOM then e.noteheads.get t else env.noteHead e.notehead t

/-- The user checks or unchecks the `customGbox` group box: the box takes the
new state and emits `toggled`. -/
def toggleCustom (env : Env) (checked : Bool) (s : Dialog) : Dialog :=
  customGbox_setChecked (valueChanged env) checked s

/-- Two dialogs hold the same drumset, the same selection and the same
control state (every control value and enabled flag, the row texts and the
preview). -/
def SameDrumsetAndControls (a b : Dialog) : Prop :=
  a.m_editedDrumset = b.m_editedDrumset ∧ a.currentItem = b.currentItem ∧
  a.itemShortcut = b.itemShortcut ∧ a.itemName = b.itemName ∧
  a.name = b.name ∧ a.noteHead = b.noteHead ∧ a.noteHeadEnabled = b.noteHeadEnabled ∧
  a.noteHeadBlocked = b.noteHeadBlocked ∧ a.customGbox = b.customGbox ∧
  a.wholeCmb = b.wholeCmb ∧ a.halfCmb = b.halfCmb ∧ a.quarterCmb = b.quarterCmb ∧
  a.doubleWholeCmb = b.doubleWholeCmb ∧ a.staffLine = b.staffLine ∧ a.voice = b.voice ∧
  a.stemDirection = b.stemDirection ∧ a.shortcut = b.shortcut ∧
  a.pitchControlsEnabled = b.pitchControlsEnabled ∧ a.drumNote = b.drumNote

/-! ## Filling the controls: definitions -/

/-- A stored shortcut the `shortcut` box can show: none (NUL) or a letter
A..G, that is, one of the eight bytes of the literal. -/
def ShownShortcut (c : Char) : Prop :=
  c ∈ letters

/-- The index `itemChanged` gives to `shortcut->setCurrentIndex` for a stored
shortcut `c`: 7 for none, `c - 'A'` otherwise. -/
def shortcutIndexOf (c : Char) : Int :=
  if c = Char.ofNat 0 then 7 else (c.toNat : Int) - (('A').toNat : Int)

/-- A stored shortcut for which the index `itemChanged` computes is an index
of the `shortcut` box: none, or a character from A to H (`'H' - 'A'` is 7, the
item "none").  With any other stored shortcut the box is left without a
current item, index -1. -/
def IndexedShortcut (c : Char) : Prop :=
  comboIndex shortcutItems.length (shortcutIndexOf c) ≠ -1

/-- The dialog after `populate` has filled the controls from the entry of row
`q`, the current row, when the stored shortcut is one the box can show: the
drumset is as before and every control shows the stored value as far as the
control can take it. -/
def populateResult (env : Env) (q : Pitch) (s : Dialog) : Dialog :=
  let e := s.m_editedDrumset q
  let custom : Bool := decide (e.notehead = .HEAD_CUSTOM)
  let n := env.resNoteheads.length
  let g : NoteHeadType → SymId :=
    if custom then e.noteheads.get else env.noteHead e.notehead
  let fill : Bool := custom || decide (e.notehead ≠ .HEAD_INVALID)
  let quarter :=
    if fill then comboIndex n (findData env.resNoteheads (g .HEAD_QUARTER)) else s.quarterCmb
  { s with
    noteHeadBlocked := false
    name := e.name
    itemName :=
      if s.shortcut = shortcutIndexOf e.shortcut then
        (if s.name = e.name then s.itemName
         else fun r => if r = q then e.name else s.itemName r)
      else fun r => qtrc (s.m_editedDrumset r).name
    itemShortcut :=
      if s.shortcut = shortcutIndexOf e.shortcut then s.itemShortcut
      else fun r => shortcutColumn (s.m_editedDrumset r).shortcut
    pitchControlsEnabled :=
      if s.name = e.name then s.pitchControlsEnabled else !e.name.isEmpty
    noteHeadEnabled :=
      if s.m_editedDrumset.isValid q then !custom
      else if s.name = e.name then s.noteHeadEnabled else !e.name.isEmpty
    staffLine := spinValue env e.line
    voice := comboIndex voiceCount e.voice
    stemDirection := comboIndex stemDirectionCount e.stemDirection
    customGbox := if s.m_editedDrumset.isValid q then custom else s.customGbox
    noteHead := comboIndex noteHeadNames.length (findData noteHeadNames e.notehead)
    wholeCmb :=
      if fill then comboIndex n (findData env.resNoteheads (g .HEAD_WHOLE)) else s.wholeCmb
    halfCmb :=
      if fill then comboIndex n (findData env.resNoteheads (g .HEAD_HALF)) else s.halfCmb
    quarterCmb := quarter
    doubleWholeCmb :=
      if fill then comboIndex n (findData env.resNoteheads (g .HEAD_BREVIS))
      else s.doubleWholeCmb
    shortcut := shortcutIndexOf e.shortcut
    drumNote := previewOf env s.m_editedDrumset q quarter }

/-! ## Sample data -/

/-- A sample environment: the combo boxes offer the eight glyphs of the
normal and the cross group, `Note::noteHead` has the rows of these two groups
(every other group is given the normal row), and a read outside the literal
`"ABCDEFG"` finds the byte `x`. -/
def sampleEnv : Env :=
  { resNoteheads :=
      ["noteheadXBlack", "noteheadXHalf", "noteheadXWhole", "noteheadXDoubleWhole",
       "noteheadBlack", "noteheadHalf", "noteheadWhole", "noteheadDoubleWhole"],
    noteHead := fun g t =>
      match g, t with
      | .HEAD_CROSS, .HEAD_WHOLE => "noteheadXWhole"
      | .HEAD_CROSS, .HEAD_HALF => "noteheadXHalf"
      | .HEAD_CROSS, .HEAD_QUARTER => "noteheadXBlack"
      | .HEAD_CROSS, .HEAD_BREVIS => "noteheadXDoubleWhole"
      | _, .HEAD_WHOLE => "noteheadWhole"
      | _, .HEAD_HALF => "noteheadHalf"
      | _, .HEAD_QUARTER => "noteheadBlack"
      | _, .HEAD_BREVIS => "noteheadDoubleWhole",
    MSC_VERSION := "3.02", staffLineMin := -100, staffLineMax := 100,
    strayByte := fun _ => 'x' }

/-- A dialog over drumset `d` before any row is selected: empty name, first
notehead group, custom box unchecked, shortcut box on "none". -/
def freshDialog (d : Drumset) : Dialog :=
  { m_editedDrumset := d, m_instrumentKey := "drums", currentItem := none,
    itemShortcut := fun p => shortcutColumn (d p).shortcut,
    itemName := fun p => qtrc (d p).name,
    name := "", noteHead := 0, noteHeadEnabled := true, noteHeadBlocked := false,
    customGbox := false, wholeCmb := -1, halfCmb := -1, quarterCmb := -1,
    doubleWholeCmb := -1, staffLine := 0, voice := 0, stemDirection := 0, shortcut := 7,
    pitchControlsEnabled := true, drumNote := none, replaced := [], errors := [],
    warnings := 0, fault := false }

/-- The entry of the end-to-end scenario of the specification: a snare on
pitch 38 with shortcut A. -/
def snare : DrumInstrument :=
  { name := "Acoustic Snare", notehead := .HEAD_NORMAL,
    noteheads := ⟨noSym, noSym, noSym, noSym⟩,
    line := 2, voice := 0, stemDirection := 0, shortcut := 'A' }

/-- A bass drum entry that also carries shortcut A. -/
def bassDrum : DrumInstrument :=
  { name := "Bass Drum", notehead := .HEAD_NORMAL,
    noteheads := ⟨noSym, noSym, noSym, noSym⟩,
    line := 7, voice := 1, stemDirection := 0, shortcut := 'A' }

/-- A drumset file of an older format version: a `museScore` container
tagged 2.06 around one record, the snare on pitch 38. -/
def oldFile : List Token :=
  [ .startElement { name := "museScore", version := "2.06", record := none },
    .startElement { name := "Drum", version := "", record := some (recordOf
      (fun _ => snare) 38) },
    .endElement,
    .endElement ]

/-- A dialog over the empty drumset with row 38 selected and edits pending in
the controls: name "Stale", staff line 9 and shortcut B. -/
def staleDialog : Dialog :=
  { freshDialog emptyDrumset with
    currentItem := some 38, name := "Stale", staffLine := 9, shortcut := 1 }

/-- A file whose top-level element is not the container: an element `kit`
around a `museScore` container of the current version with one record, the
snare on pitch 38. -/
def nestedFile : List Token :=
  [ .startElement { name := "kit", version := "", record := none },
    .startElement { name := "museScore", version := "3.02", record := none },
    .startElement { name := "Drum", version := "", record := some (recordOf
      (fun _ => snare) 38) },
    .endElement,
    .endElement,
    .endElement ]

/-- The file `oldFile` inside a top-level element `kit`. -/
def nestedOldFile : List Token :=
  .startElement { name := "kit", version := "", record := none } ::
    (oldFile ++ [.endElement])

/-- A closed hi-hat entry whose stored shortcut is the letter H, as a drumset
file may supply it. -/
def hiHat : DrumInstrument :=
  { name := "Closed Hi-Hat", notehead := .HEAD_CROSS,
    noteheads := ⟨noSym, noSym, noSym, noSym⟩,
    line := -1, voice := 0, stemDirection := 0, shortcut := 'H' }

/-- The snare drumset with the hi-hat on pitch 42. -/
def hiHatDrumset : Drumset := (emptyDrumset.set 38 snare).set 42 hiHat

/-- The dialog over drumset `d` with row 38 selected and the controls showing
the snare: its name, group HEAD_NORMAL with the four glyphs of that group,
line 2, voice 0, shortcut A. -/
def snareDialog (d : Drumset) : Dialog :=
  { freshDialog d with
    currentItem := some 38, name := "Acoustic Snare", noteHead := 0,
    wholeCmb := 6, halfCmb := 5, quarterCmb := 4, doubleWholeCmb := 7,
    staffLine := 2, shortcut := 0 }

/-- A snare entry drawn with the group HEAD_SOL, which the `noteHead` box does
not offer. -/
def solSnare : DrumInstrument :=
  { snare with notehead := .HEAD_SOL }

/-- The dialog over the drumset with `solSnare` on pitch 38, row 38 selected
and the controls showing the entry: the `noteHead` box has no current item. -/
def solDialog : Dialog :=
  { snareDialog (emptyDrumset.set 38 solSnare) with noteHead := -1 }

/-- A snare entry in custom mode, its four glyphs among those offered. -/
def customSnare : DrumInstrument :=
  { snare with
    notehead := .HEAD_CUSTOM
    noteheads := ⟨"noteheadXWhole", "noteheadXHalf", "noteheadXBlack", "noteheadDoubleWhole"⟩ }

/-- A drumset with the custom snare on pitch 38 only; pitch 36 is unused. -/
def customDrumset : Drumset := emptyDrumset.set 38 customSnare

/-- A snare entry drawn with the cross notehead group. -/
def crossSnare : DrumInstrument :=
  { snare with notehead := .HEAD_CROSS }

/-- A drumset with the cross-headed snare on pitch 38 only. -/
def crossDrumset : Drumset := emptyDrumset.set 38 crossSnare

/-- The dialog over `crossDrumset` with row 38 selected and the controls
showing its entry in preset mode: name, group HEAD_CROSS (item 1 of the
`noteHead` box), the four glyphs of that group, line 2, shortcut A. -/
def crossDialog : Dialog :=
  { freshDialog crossDrumset with
    currentItem := some 38, name := "Acoustic Snare", noteHead := 1,
    wholeCmb := 2, halfCmb := 1, quarterCmb := 0, doubleWholeCmb := 3,
    staffLine := 2, shortcut := 0 }

/-- A drumset with the snare on pitch 38 only. -/
def snareDrumset : Drumset := emptyDrumset.set 38 snare

/-- A drumset in which pitches 36 and 38 both carry shortcut A, as a drumset
file or an instrument may supply it. -/
def duplicateDrumset : Drumset := snareDrumset.set 36 bassDrum

/-- The snare dialog with the `noteHead` box on its last item, HEAD_CUSTOM,
while the custom box is unchecked. -/
def customItemDialog : Dialog :=
  { snareDialog snareDrumset with noteHead := 21 }

/-! ## Lemmas on the drumset table -/

theorem Drumset.set_same (d : Drumset) (p : Pitch) (e : DrumInstrument) :
    d.set p e p = e := by
  simp [Drumset.set]

theorem Drumset.set_other (d : Drumset) (p q : Pitch) (e : DrumInstrument) (h : q ≠ p) :
    d.set p e q = d q := by
  simp [Drumset.set, h]

theorem foldl_clearConflictStep (pitch : Pitch) (sc : Char) (l : List Pitch) :
    ∀ (d : Drumset) (j : Pitch),
      (l.foldl (clearConflictStep pitch sc) d) j =
        if j ∈ l ∧ j ≠ pitch ∧ (d j).shortcut = sc then
          { d j with shortcut := Char.ofNat 0 }
        else d j := by
  induction l with
  | nil => intro d j; simp
  | cons i l ih =>
    intro d j
    rw [List.foldl_cons, ih]
    by_cases hij : j = i
    · subst hij
      by_cases hp : j = pitch
      · simp [clearConflictStep, hp]
      · by_cases hs : (d j).shortcut = sc
        · simp [clearConflictStep, hp, hs, Drumset.set]
        · simp [clearConflictStep, hp, hs]
    · have hstep : clearConflictStep pitch sc d i j = d j := by
        unfold clearConflictStep
        split
        · rfl
        · split
          · exact Drumset.set_other _ _ _ _ hij
          · rfl
      simp [hstep, hij]

theorem clearConflicts_apply (pitch : Pitch) (sc : Char) (d : Drumset) (j : Pitch) :
    clearConflicts pitch sc d j =
      if j ≠ pitch ∧ (d j).shortcut = sc then { d j with shortcut := Char.ofNat 0 }
      else d j := by
  unfold clearConflicts
  rw [foldl_clearConflictStep]
  simp [List.mem_finRange]

theorem qcharString_inj (a b : Char) : qcharString a = qcharString b ↔ a = b := by
  constructor
  · intro h
    have h2 := congrArg String.data h
    simpa [qcharString, String.singleton] using h2
  · rintro rfl; rfl

theorem qcharString_length (c : Char) : (qcharString c).length = 1 := by
  simp [qcharString, String.singleton, String.length]

theorem shortcutText_letter (env : Env) (k : Fin 7) :
    shortcutText (k.val : Int) = qcharString (letterAt env (k.val : Int)) := by
  fin_cases k <;> rfl

/-- Inside the literal the read does not depend on the memory around it. -/
theorem letterAt_fin (env : Env) (k : Fin 8) :
    letterAt env (k.val : Int) = letters.getD k.val (Char.ofNat 0) := by
  fin_cases k <;> rfl

theorem letterAt_fin7 (env : Env) (k : Fin 7) :
    letterAt env (k.val : Int) = letters.getD k.val (Char.ofNat 0) := by
  fin_cases k <;> rfl

theorem letterAt_ne_zero {env : Env} (k : Fin 7) : letterAt env (k.val : Int) ≠ Char.ofNat 0 := by
  rw [letterAt_fin7]
  fin_cases k <;> decide

theorem shownShortcut_cases (env : Env) (c : Char) (h : ShownShortcut c) :
    c = Char.ofNat 0 ∨ ∃ k : Fin 7, c = letterAt env (k.val : Int) := by
  unfold ShownShortcut letters at h
  simp only [List.mem_cons, List.mem_singleton, List.not_mem_nil, or_false] at h
  rcases h with h | h | h | h | h | h | h | h
  · exact Or.inr ⟨0, h.trans (letterAt_fin7 env 0).symm⟩
  · exact Or.inr ⟨1, h.trans (letterAt_fin7 env 1).symm⟩
  · exact Or.inr ⟨2, h.trans (letterAt_fin7 env 2).symm⟩
  · exact Or.inr ⟨3, h.trans (letterAt_fin7 env 3).symm⟩
  · exact Or.inr ⟨4, h.trans (letterAt_fin7 env 4).symm⟩
  · exact Or.inr ⟨5, h.trans (letterAt_fin7 env 5).symm⟩
  · exact Or.inr ⟨6, h.trans (letterAt_fin7 env 6).symm⟩
  · exact Or.inl h

theorem shownShortcut_letterAt (env : Env) (k : Fin 7) :
    ShownShortcut (letterAt env (k.val : Int)) := by
  rw [letterAt_fin7]
  unfold ShownShortcut
  fin_cases k <;> decide

theorem shownShortcut_zero : ShownShortcut (Char.ofNat 0) := by
  unfold ShownShortcut
  decide

theorem shortcutChanged_drumset_of_guard {env : Env} (s : Dialog) (p : Pitch)
    (hcur : s.currentItem = some p)
    (hg : qcharString (s.m_editedDrumset p).shortcut ≠ shortcutText s.shortcut) :
    (shortcutChanged env s).m_editedDrumset =
      (clearConflicts p (if s.shortcut = 7 then Char.ofNat 0 else letterAt env s.shortcut)
        s.m_editedDrumset).set p
        { clearConflicts p (if s.shortcut = 7 then Char.ofNat 0 else letterAt env s.shortcut)
            s.m_editedDrumset p with
          shortcut := if s.shortcut = 7 then Char.ofNat 0 else letterAt env s.shortcut } := by
  simp only [shortcutChanged, hcur, refreshPitchesList]
  rw [if_pos hg]

theorem shortcutChanged_drumset_of_not_guard {env : Env} (s : Dialog) (p : Pitch)
    (hcur : s.currentItem = some p)
    (hg : ¬ qcharString (s.m_editedDrumset p).shortcut ≠ shortcutText s.shortcut) :
    (shortcutChanged env s).m_editedDrumset = s.m_editedDrumset := by
  simp only [shortcutChanged, hcur, refreshPitchesList]
  rw [if_neg hg]

theorem shortcutChanged_drumset_none {env : Env} (s : Dialog) (hcur : s.currentItem = none) :
    (shortcutChanged env s).m_editedDrumset = s.m_editedDrumset := by
  simp only [shortcutChanged, hcur]

/-- Writing `sc` into `p` after the eviction loop for `sc` keeps the table free
of duplicate letters. -/
theorem unique_evict_set (d : Drumset) (p : Pitch) (sc : Char) (hu : UniqueShortcuts d) :
    UniqueShortcuts
      ((clearConflicts p sc d).set p { clearConflicts p sc d p with shortcut := sc }) := by
  intro i j hij hne
  by_cases hi : i = p <;> by_cases hj : j = p
  · rw [hi, hj]
  · exfalso
    subst hi
    simp only [Drumset.set_same, Drumset.set_other _ _ _ _ hj, clearConflicts_apply] at hij hne
    by_cases hs : (d j).shortcut = sc
    · simp [hj, hs] at hij
      exact hne hij
    · simp [hj, hs] at hij
      exact hs hij.symm
  · exfalso
    subst hj
    simp only [Drumset.set_same, Drumset.set_other _ _ _ _ hi, clearConflicts_apply] at hij hne
    by_cases hs : (d i).shortcut = sc
    · simp [hi, hs] at hne
    · simp [hi, hs] at hij
  · simp only [Drumset.set_other _ _ _ _ hi, Drumset.set_other _ _ _ _ hj,
      clearConflicts_apply] at hij hne
    by_cases hsi : (d i).shortcut = sc
    · simp [hi, hsi] at hne
    · by_cases hsj : (d j).shortcut = sc
      · simp [hi, hj, hsi, hsj] at hij hne
        exact absurd hij hne
      · simp [hi, hj, hsi, hsj] at hij hne
        exact hu i j hij hne

theorem shortcutChanged_unique {env : Env} (s : Dialog) (hu : UniqueShortcuts s.m_editedDrumset) :
    UniqueShortcuts (shortcutChanged env s).m_editedDrumset := by
  cases hcur : s.currentItem with
  | none => rw [shortcutChanged_drumset_none s hcur]; exact hu
  | some p =>
    by_cases hg : qcharString (s.m_editedDrumset p).shortcut ≠ shortcutText s.shortcut
    · rw [shortcutChanged_drumset_of_guard s p hcur hg]
      exact unique_evict_set _ _ _ hu
    · rw [shortcutChanged_drumset_of_not_guard s p hcur hg]; exact hu

theorem unique_emptyDrumset : UniqueShortcuts emptyDrumset := by
  intro i j _ hne
  exact absurd rfl hne

/-! ## Steps that push nothing -/

theorem Silent.refl (s : Dialog) : Silent s s :=
  ⟨rfl, rfl, rfl, rfl, rfl, rfl, id, fun _ _ => rfl⟩

theorem Silent.trans {s t u : Dialog} (h1 : Silent s t) (h2 : Silent t u) : Silent s u :=
  ⟨h2.1.trans h1.1, h2.2.1.trans h1.2.1, h2.2.2.1.trans h1.2.2.1,
    h2.2.2.2.1.trans h1.2.2.2.1, h2.2.2.2.2.1.trans h1.2.2.2.2.1,
    h2.2.2.2.2.2.1.trans h1.2.2.2.2.2.1, fun h => h2.2.2.2.2.2.2.1 (h1.2.2.2.2.2.2.1 h),
    fun q hq => (h2.2.2.2.2.2.2.2 q (by rw [h1.2.2.2.2.1]; exact hq)).trans
      (h1.2.2.2.2.2.2.2 q hq)⟩

theorem unique_of_shortcuts_eq {d e : Drumset}
    (h : ∀ q, (e q).shortcut = (d q).shortcut) (hu : UniqueShortcuts d) :
    UniqueShortcuts e := by
  intro i j hij hne
  rw [h i, h j] at hij
  rw [h i] at hne
  exact hu i j hij hne

theorem updateExample_silent (env : Env) (s : Dialog) : Silent s (updateExample env s) := by
  unfold updateExample
  dsimp only
  split
  · exact ⟨rfl, rfl, rfl, rfl, rfl, rfl, id, fun _ _ => rfl⟩
  · split
    · exact ⟨rfl, rfl, rfl, rfl, rfl, rfl, id, fun _ _ => rfl⟩
    · exact ⟨rfl, rfl, rfl, rfl, rfl, rfl, id, fun _ _ => rfl⟩

theorem updateExample_drumset (env : Env) (s : Dialog) :
    (updateExample env s).m_editedDrumset = s.m_editedDrumset := by
  unfold updateExample
  cases hcur : s.currentItem with
  | none => rfl
  | some p =>
    simp only []
    split <;> rfl

theorem quarterCmb_setCurrentIndex_silent (env : Env) (i : Int) (s : Dialog) :
    Silent s (quarterCmb_setCurrentIndex env i s) := by
  unfold quarterCmb_setCurrentIndex customQuarterChanged
  simp only []
  split
  · exact Silent.refl s
  · exact Silent.trans ⟨rfl, rfl, rfl, rfl, rfl, rfl, id, fun _ _ => rfl⟩ (updateExample_silent env _)

theorem quarterCmb_setCurrentIndex_drumset (env : Env) (i : Int) (s : Dialog) :
    (quarterCmb_setCurrentIndex env i s).m_editedDrumset = s.m_editedDrumset := by
  unfold quarterCmb_setCurrentIndex customQuarterChanged
  simp only []
  split
  · rfl
  · rw [updateExample_drumset]

theorem setNoteheadCombos_silent (env : Env) (g : NoteHeadType → SymId) (s : Dialog) :
    Silent s (setNoteheadCombos env g s) := by
  unfold setNoteheadCombos
  exact quarterCmb_setCurrentIndex_silent env _ _

theorem setNoteheadCombos_drumset (env : Env) (g : NoteHeadType → SymId) (s : Dialog) :
    (setNoteheadCombos env g s).m_editedDrumset = s.m_editedDrumset := by
  unfold setNoteheadCombos
  simp only [quarterCmb_setCurrentIndex_drumset]

theorem fillNoteheadsComboboxes_silent (env : Env) (c : Bool) (p : Pitch) (s : Dialog) :
    Silent s (fillNoteheadsComboboxes env c p s) := by
  unfold fillNoteheadsComboboxes
  split
  · exact setNoteheadCombos_silent env _ s
  · simp only []
    split
    · exact Silent.refl s
    · exact setNoteheadCombos_silent env _ s

theorem fillNoteheadsComboboxes_drumset (env : Env) (c : Bool) (p : Pitch) (s : Dialog) :
    (fillNoteheadsComboboxes env c p s).m_editedDrumset = s.m_editedDrumset := by
  unfold fillNoteheadsComboboxes
  split
  · exact setNoteheadCombos_drumset env _ s
  · simp only []
    split
    · rfl
    · exact setNoteheadCombos_drumset env _ s

theorem noteHead_setCurrentIndex_blocked (vc : Dialog → Dialog) (i : Int) (s : Dialog)
    (hb : s.noteHeadBlocked = true) :
    noteHead_setCurrentIndex vc i s =
      if s.noteHead = comboIndex noteHeadNames.length i then s
      else { s with noteHead := comboIndex noteHeadNames.length i } := by
  unfold noteHead_setCurrentIndex
  simp only [hb, if_true]

theorem noteHead_setCurrentIndex_silent (vc : Dialog → Dialog) (i : Int) (s : Dialog)
    (hb : s.noteHeadBlocked = true) : Silent s (noteHead_setCurrentIndex vc i s) := by
  rw [noteHead_setCurrentIndex_blocked vc i s hb]
  split
  · exact Silent.refl s
  · exact ⟨rfl, rfl, rfl, rfl, rfl, rfl, id, fun _ _ => rfl⟩

theorem customGboxToggledWith_silent (vc : Dialog → Dialog) (c : Bool) (s : Dialog)
    (hb : s.noteHeadBlocked = true) : Silent s (customGboxToggledWith vc c s) := by
  unfold customGboxToggledWith
  cases c
  · exact noteHead_setCurrentIndex_silent vc _ { s with noteHeadEnabled := !false } hb
  · exact noteHead_setCurrentIndex_silent vc _ { s with noteHeadEnabled := !true } hb

theorem customGbox_setChecked_silent (vc : Dialog → Dialog) (c : Bool) (s : Dialog)
    (hb : s.noteHeadBlocked = true) : Silent s (customGbox_setChecked vc c s) := by
  unfold customGbox_setChecked
  split
  · exact Silent.refl s
  · exact customGboxToggledWith_silent vc c { s with customGbox := c } hb

theorem setCustomNoteheadsGUIEnabledWith_silent (vc : Dialog → Dialog) (c : Bool)
    (s : Dialog) (hb : s.noteHeadBlocked = true) :
    Silent s (setCustomNoteheadsGUIEnabledWith vc c s) := by
  unfold setCustomNoteheadsGUIEnabledWith
  have h1 := customGbox_setChecked_silent vc c s hb
  have hb1 : (customGbox_setChecked vc c s).noteHeadBlocked = true := h1.1.trans hb
  cases c
  · exact h1
  · exact Silent.trans h1
      (noteHead_setCurrentIndex_silent vc _
        { customGbox_setChecked vc true s with noteHeadEnabled := !true } hb1)

theorem setEnabledPitchControls_silent (b : Bool) (s : Dialog) :
    Silent s (setEnabledPitchControls b s) :=
  ⟨rfl, rfl, rfl, rfl, rfl, rfl, id, fun _ _ => rfl⟩

theorem setDrum_name_silent (s : Dialog) (p : Pitch) (n : String)
    (hcur : s.currentItem = some p) :
    Silent s (s.setDrum p { s.m_editedDrumset p with name := n }) := by
  refine ⟨rfl, rfl, rfl, rfl, rfl, rfl, ?_, ?_⟩
  · apply unique_of_shortcuts_eq
    intro q
    by_cases hq : q = p
    · subst hq; simp [Dialog.setDrum, Drumset.set]
    · simp [Dialog.setDrum, Drumset.set, hq]
  · intro q hq
    have hqp : q ≠ p := fun h => hq (by rw [hcur, h])
    simp [Dialog.setDrum, Drumset.set, hqp]

theorem nameChanged_silent (env : Env) (n : String) (s : Dialog)
    (hb : s.noteHeadBlocked = true) : Silent s (nameChanged env n s) := by
  unfold nameChanged
  refine Silent.trans ?_ (setEnabledPitchControls_silent _ _)
  split
  · exact Silent.refl s
  · rename_i p _
    dsimp only
    split
    · split
      · exact noteHead_setCurrentIndex_silent (valueChanged env) 0
          { s with itemName := fun q => if q = p then n else s.itemName q } hb
      · exact ⟨rfl, rfl, rfl, rfl, rfl, rfl, id, fun _ _ => rfl⟩
    · rename_i hcur _
      exact setDrum_name_silent
        { s with itemName := fun q => if q = p then n else s.itemName q } p "" hcur

theorem name_setText_silent (env : Env) (t : String) (s : Dialog)
    (hb : s.noteHeadBlocked = true) : Silent s (name_setText env t s) := by
  unfold name_setText
  split
  · exact Silent.refl s
  · exact nameChanged_silent env t { s with name := t } hb

theorem refreshPitchesList_silent (s : Dialog) : Silent s (refreshPitchesList s) :=
  ⟨rfl, rfl, rfl, rfl, rfl, rfl, id, fun _ _ => rfl⟩

theorem shortcutChanged_fields {env : Env} (s : Dialog) :
    (shortcutChanged env s).noteHeadBlocked = s.noteHeadBlocked ∧
    (shortcutChanged env s).replaced = s.replaced ∧ (shortcutChanged env s).errors = s.errors ∧
    (shortcutChanged env s).warnings = s.warnings ∧
    (shortcutChanged env s).currentItem = s.currentItem ∧
    (shortcutChanged env s).m_instrumentKey = s.m_instrumentKey := by
  unfold shortcutChanged
  split
  · exact ⟨rfl, rfl, rfl, rfl, rfl, rfl⟩
  · dsimp only [refreshPitchesList]
    split <;> exact ⟨rfl, rfl, rfl, rfl, rfl, rfl⟩

theorem shortcutChanged_name {env : Env} (s : Dialog) (q : Pitch) :
    ((shortcutChanged env s).m_editedDrumset q).name = (s.m_editedDrumset q).name := by
  cases hcur : s.currentItem with
  | none => rw [shortcutChanged_drumset_none s hcur]
  | some p =>
    by_cases hg : qcharString (s.m_editedDrumset p).shortcut ≠ shortcutText s.shortcut
    · rw [shortcutChanged_drumset_of_guard s p hcur hg]
      by_cases hq : q = p
      · subst hq
        rw [Drumset.set_same, clearConflicts_apply]
        simp
      · rw [Drumset.set_other _ _ _ _ hq, clearConflicts_apply]
        split_ifs <;> rfl
    · rw [shortcutChanged_drumset_of_not_guard s p hcur hg]

theorem shortcutChanged_silent_shortcut {env : Env} (s : Dialog) :
    (shortcutChanged env s).shortcut = s.shortcut := by
  unfold shortcutChanged
  split
  · rfl
  · dsimp only [refreshPitchesList]
    split <;> rfl

theorem shortcutChanged_silent {env : Env} (s : Dialog) : Silent s (shortcutChanged env s) :=
  have h := shortcutChanged_fields s
  ⟨h.1, h.2.1, h.2.2.1, h.2.2.2.1, h.2.2.2.2.1, h.2.2.2.2.2, shortcutChanged_unique s,
    fun q _ => shortcutChanged_name s q⟩

theorem shortcut_setCurrentIndex_silent {env : Env} (i : Int) (s : Dialog) :
    Silent s (shortcut_setCurrentIndex env i s) := by
  unfold shortcut_setCurrentIndex
  dsimp only
  split
  · exact Silent.refl s
  · exact shortcutChanged_silent { s with shortcut := comboIndex shortcutItems.length i }

/-- Filling the controls from a row pushes nothing and keeps the shortcut
letters free of duplicates. -/
theorem populate_silent (env : Env) (pitch : Pitch) (s : Dialog) :
    (populate env pitch s).replaced = s.replaced ∧
    (populate env pitch s).errors = s.errors ∧
    (populate env pitch s).currentItem = s.currentItem ∧
    (UniqueShortcuts s.m_editedDrumset →
      UniqueShortcuts (populate env pitch s).m_editedDrumset) ∧
    (∀ q : Pitch, s.currentItem ≠ some q →
      ((populate env pitch s).m_editedDrumset q).name = (s.m_editedDrumset q).name) := by
  unfold populate
  dsimp only
  generalize hs1 : name_setText env _ { s with noteHeadBlocked := true } = s1
  have h1 : Silent { s with noteHeadBlocked := true } s1 := by
    rw [← hs1]; exact name_setText_silent env _ _ rfl
  have hb1 : s1.noteHeadBlocked = true := h1.1
  generalize hs4 : ({ s1 with
    staffLine := spinValue env (s1.m_editedDrumset pitch).line,
    voice := comboIndex voiceCount (s1.m_editedDrumset pitch).voice,
    stemDirection :=
      comboIndex stemDirectionCount (s1.m_editedDrumset pitch).stemDirection } : Dialog) = s4
  have h4 : Silent s1 s4 := by
    rw [← hs4]; exact ⟨rfl, rfl, rfl, rfl, rfl, rfl, id, fun _ _ => rfl⟩
  have hb4 : s4.noteHeadBlocked = true := h4.1.trans hb1
  generalize hs5 : (if s1.m_editedDrumset.isValid pitch = true then
      setCustomNoteheadsGUIEnabled env (decide ((s1.m_editedDrumset pitch).notehead = .HEAD_CUSTOM)) s4
    else s4) = s5
  have h5 : Silent s4 s5 := by
    rw [← hs5]
    split
    · exact setCustomNoteheadsGUIEnabledWith_silent _ _ _ hb4
    · exact Silent.refl s4
  have hb5 : s5.noteHeadBlocked = true := h5.1.trans hb4
  generalize hs6 : noteHead_setCurrentIndex (valueChanged env)
    (findData noteHeadNames (s1.m_editedDrumset pitch).notehead) s5 = s6
  have h6 : Silent s5 s6 := by
    rw [← hs6]; exact noteHead_setCurrentIndex_silent _ _ _ hb5
  generalize hs7 : fillNoteheadsComboboxes env
    (decide ((s1.m_editedDrumset pitch).notehead = .HEAD_CUSTOM)) pitch s6 = s7
  have h7 : Silent s6 s7 := by
    rw [← hs7]; exact fillNoteheadsComboboxes_silent _ _ _ _
  generalize hs8 : (if (s7.m_editedDrumset pitch).shortcut = Char.ofNat 0 then
      shortcut_setCurrentIndex env 7 s7
    else shortcut_setCurrentIndex env
      (((s7.m_editedDrumset pitch).shortcut.toNat : Int) - (('A').toNat : Int)) s7) = s8
  have h8 : Silent s7 s8 := by
    rw [← hs8]
    split <;> exact shortcut_setCurrentIndex_silent _ _
  have h9 := updateExample_silent env { s8 with noteHeadBlocked := false }
  have hall : Silent { s with noteHeadBlocked := true } s8 :=
    (((((h1.trans h4).trans h5).trans h6).trans h7).trans h8)
  exact ⟨h9.2.1.trans hall.2.1, h9.2.2.1.trans hall.2.2.1,
    h9.2.2.2.2.1.trans hall.2.2.2.2.1,
    fun hu => h9.2.2.2.2.2.2.1 (hall.2.2.2.2.2.2.1 hu),
    fun q hq => (h9.2.2.2.2.2.2.2 q
      (by show s8.currentItem ≠ some q; rw [hall.2.2.2.2.1]; exact hq)).trans
      (hall.2.2.2.2.2.2.2 q hq)⟩

/-! ## The value-changed commit in closed form -/

@[simp]
theorem Drumset.set_set (d : Drumset) (p : Pitch) (e f : DrumInstrument) :
    (d.set p e).set p f = d.set p f := by
  funext q
  simp only [Drumset.set]
  split <;> rfl

@[simp]
theorem Drumset.set_apply_same (d : Drumset) (p : Pitch) (e : DrumInstrument) :
    d.set p e p = e := Drumset.set_same d p e

theorem updateExample_some (env : Env) (s : Dialog) (p : Pitch)
    (hcur : s.currentItem = some p) :
    updateExample env s =
      { s with drumNote := previewOf env s.m_editedDrumset p s.quarterCmb } := by
  unfold updateExample previewOf
  simp only [hcur]
  split <;> rfl

theorem committedShortcut_idem (i : Int) (c : Char) :
    committedShortcut i (committedShortcut i c) = committedShortcut i c := by
  unfold committedShortcut
  split_ifs <;> simp_all

theorem findData_custom : findData noteHeadNames .HEAD_CUSTOM = 21 := by decide

theorem Drumset.set_self (d : Drumset) (p : Pitch) : d.set p (d p) = d := by
  funext q
  simp only [Drumset.set]
  split
  · rename_i h; rw [h]
  · rfl

theorem commitShortcutText_eq (p : Pitch) (s : Dialog) :
    commitShortcutText p s =
      s.setDrum p { s.m_editedDrumset p with
        shortcut := committedShortcut s.shortcut (s.m_editedDrumset p).shortcut } := by
  unfold commitShortcutText committedShortcut
  split
  · split <;> rfl
  · simp only [Dialog.setDrum]
    rw [Drumset.set_self]

theorem valueChangedBody_custom_settled (env : Env) (vc : Dialog → Dialog) (s : Dialog)
    (p : Pitch) (hcur : s.currentItem = some p)
    (hidx : s.noteHead = findData noteHeadNames .HEAD_CUSTOM) :
    valueChangedBody env vc s = customResult env p s := by
  have h21 : comboIndex noteHeadNames.length (findData noteHeadNames .HEAD_CUSTOM) =
      findData noteHeadNames .HEAD_CUSTOM := by decide
  cases hc : s.customGbox <;>
  · simp [valueChangedBody, hcur, Dialog.setDrum, fillCustomNoteheadsDataFromComboboxes,
      setCustomNoteheadsGUIEnabledWith, customGbox_setChecked, customGboxToggledWith,
      noteHead_setCurrentIndex, hidx, hc, h21, updateExample_some, customResult,
      customEntry, commitShortcutText_eq]

theorem valueChangedBody_custom_reentry (env : Env) (vc : Dialog → Dialog) (s : Dialog)
    (p : Pitch) (hcur : s.currentItem = some p) (hc : s.customGbox = true)
    (hidx : s.noteHead ≠ findData noteHeadNames .HEAD_CUSTOM)
    (hb : s.noteHeadBlocked = false)
    (hvc : ∀ t : Dialog, t.currentItem = some p →
      t.noteHead = findData noteHeadNames .HEAD_CUSTOM → vc t = customResult env p t) :
    valueChangedBody env vc s =
      { customResult env p s with
        replaced :=
          (s.m_instrumentKey,
            s.m_editedDrumset.set p (customEntry env s (s.m_editedDrumset p))) ::
          (s.m_instrumentKey,
            s.m_editedDrumset.set p (customEntry env s (s.m_editedDrumset p))) ::
          s.replaced } := by
  have h21 : comboIndex noteHeadNames.length (findData noteHeadNames .HEAD_CUSTOM) =
      findData noteHeadNames .HEAD_CUSTOM := by decide
  simp [valueChangedBody, hcur, Dialog.setDrum, fillCustomNoteheadsDataFromComboboxes,
    setCustomNoteheadsGUIEnabledWith, customGbox_setChecked, customGboxToggledWith,
    noteHead_setCurrentIndex, hidx, hc, hb, h21, updateExample_some, customResult,
    customEntry, commitShortcutText_eq, hvc, committedShortcut_idem]

theorem valueChangedBody_custom_blocked (env : Env) (vc : Dialog → Dialog) (s : Dialog)
    (p : Pitch) (hcur : s.currentItem = some p) (hc : s.customGbox = true)
    (hb : s.noteHeadBlocked = true) :
    valueChangedBody env vc s = customResult env p s := by
  have h21 : comboIndex noteHeadNames.length (findData noteHeadNames .HEAD_CUSTOM) =
      findData noteHeadNames .HEAD_CUSTOM := by decide
  by_cases hidx : s.noteHead = findData noteHeadNames .HEAD_CUSTOM
  · exact valueChangedBody_custom_settled env vc s p hcur hidx
  · simp [valueChangedBody, hcur, Dialog.setDrum, fillCustomNoteheadsDataFromComboboxes,
      setCustomNoteheadsGUIEnabledWith, customGbox_setChecked, customGboxToggledWith,
      noteHead_setCurrentIndex, hidx, hc, hb, h21, updateExample_some, customResult,
      customEntry, commitShortcutText_eq]

theorem groupOfData_ne_invalid (i : Int) :
    groupOfData (currentData noteHeadNames i) ≠ .HEAD_INVALID := by
  unfold groupOfData currentData
  split
  · decide
  · cases h : noteHeadNames.get? i.toNat with
    | none => decide
    | some g =>
      have hm : g ∈ noteHeadNames := List.get?_mem h
      simp only [Option.getD_some]
      rintro rfl
      revert hm
      decide

theorem valueChangedBody_preset (env : Env) (vc : Dialog → Dialog) (s : Dialog)
    (p : Pitch) (hcur : s.currentItem = some p) (hc : s.customGbox = false)
    (hidx : s.noteHead ≠ findData noteHeadNames .HEAD_CUSTOM) :
    valueChangedBody env vc s = presetResult env p s := by
  have hg := groupOfData_ne_invalid s.noteHead
  by_cases hq : s.quarterCmb = comboIndex env.resNoteheads.length
      (findData env.resNoteheads
        (env.noteHead (groupOfData (currentData noteHeadNames s.noteHead)) .HEAD_QUARTER))
  · simp [valueChangedBody, hcur, Dialog.setDrum, fillNoteheadsComboboxes,
      setNoteheadCombos, quarterCmb_setCurrentIndex, customQuarterChanged,
      setCustomNoteheadsGUIEnabledWith, customGbox_setChecked,
      hidx, hc, hg, ← hq, updateExample_some, presetResult, presetEntry,
      commitShortcutText_eq]
  · simp [valueChangedBody, hcur, Dialog.setDrum, fillNoteheadsComboboxes,
      setNoteheadCombos, quarterCmb_setCurrentIndex, customQuarterChanged,
      setCustomNoteheadsGUIEnabledWith, customGbox_setChecked,
      hidx, hc, hg, hq, updateExample_some, presetResult, presetEntry,
      commitShortcutText_eq]

theorem valueChanged_none (env : Env) (s : Dialog) (hcur : s.currentItem = none) :
    valueChanged env s = s := by
  simp [valueChanged, valueChangedFuel, valueChangedBody, hcur]

theorem valueChanged_preset (env : Env) (s : Dialog) (p : Pitch)
    (hcur : s.currentItem = some p) (hc : s.customGbox = false)
    (hidx : s.noteHead ≠ findData noteHeadNames .HEAD_CUSTOM) :
    valueChanged env s = presetResult env p s :=
  valueChangedBody_preset env _ s p hcur hc hidx

/-- In custom mode `valueChanged` leaves `customResult`, with the push made
twice when the body re-enters itself through the `noteHead` signal. -/
theorem valueChanged_custom (env : Env) (s : Dialog) (p : Pitch)
    (hcur : s.currentItem = some p)
    (hcond : s.customGbox = true ∨ s.noteHead = findData noteHeadNames .HEAD_CUSTOM) :
    valueChanged env s = customResult env p s ∨
    valueChanged env s =
      { customResult env p s with
        replaced :=
          (s.m_instrumentKey,
            s.m_editedDrumset.set p (customEntry env s (s.m_editedDrumset p))) ::
          (s.m_instrumentKey,
            s.m_editedDrumset.set p (customEntry env s (s.m_editedDrumset p))) ::
          s.replaced } := by
  by_cases hidx : s.noteHead = findData noteHeadNames .HEAD_CUSTOM
  · exact Or.inl (valueChangedBody_custom_settled env _ s p hcur hidx)
  · have hc : s.customGbox = true := hcond.resolve_right hidx
    cases hb : s.noteHeadBlocked
    · refine Or.inr (valueChangedBody_custom_reentry env _ s p hcur hc hidx hb ?_)
      intro t ht hti
      exact valueChangedBody_custom_settled env _ t p ht hti
    · exact Or.inl (valueChangedBody_custom_blocked env _ s p hcur hc hb)

theorem valueChanged_custom_settled_eq (env : Env) (s : Dialog) (p : Pitch)
    (hcur : s.currentItem = some p)
    (hidx : s.noteHead = findData noteHeadNames .HEAD_CUSTOM) :
    valueChanged env s = customResult env p s :=
  valueChangedBody_custom_settled env _ s p hcur hidx

/-- The slot `valueChanged` does not depend on the depth allowed for its
re-entry once that depth is two. -/
theorem valueChangedFuel_stable (env : Env) (n : Nat) (s : Dialog) :
    valueChangedFuel env (n + 2) s = valueChanged env s := by
  cases hcur : s.currentItem with
  | none =>
    rw [valueChanged_none env s hcur]
    simp [valueChangedFuel, valueChangedBody, hcur]
  | some p =>
    by_cases hidx : s.noteHead = findData noteHeadNames .HEAD_CUSTOM
    · exact (valueChangedBody_custom_settled env _ s p hcur hidx).trans
        (valueChangedBody_custom_settled env _ s p hcur hidx).symm
    · cases hc : s.customGbox
      · exact (valueChangedBody_preset env _ s p hcur hc hidx).trans
          (valueChangedBody_preset env _ s p hcur hc hidx).symm
      · cases hb : s.noteHeadBlocked
        · have hset : ∀ (vc : Dialog → Dialog) (t : Dialog), t.currentItem = some p →
              t.noteHead = findData noteHeadNames .HEAD_CUSTOM →
              valueChangedBody env vc t = customResult env p t :=
            fun vc t ht hti => valueChangedBody_custom_settled env vc t p ht hti
          exact (valueChangedBody_custom_reentry env (valueChangedFuel env (n + 1)) s p hcur hc
              hidx hb (hset _)).trans
            (valueChangedBody_custom_reentry env (valueChangedFuel env 1) s p hcur hc
              hidx hb (hset _)).symm
        · exact (valueChangedBody_custom_blocked env _ s p hcur hc hb).trans
            (valueChangedBody_custom_blocked env _ s p hcur hc hb).symm

theorem commitPrevious_eq (env : Env) (p : Pitch) (s : Dialog) :
    commitPrevious env p s =
      { s with
        m_editedDrumset := s.m_editedDrumset.set p (previousEntry env s (s.m_editedDrumset p))
        itemName := fun q => if q = p then qtrc s.name else s.itemName q } := by
  unfold commitPrevious
  cases hc : s.customGbox
  · cases hd : currentData noteHeadNames s.noteHead <;>
      by_cases h7 : s.shortcut = 7 <;>
      simp [Dialog.setDrum, hc, hd, h7, previousEntry, shortcutLetter, Drumset.set_self]
  · by_cases h7 : s.shortcut = 7 <;>
      simp [Dialog.setDrum, hc, h7, previousEntry, shortcutLetter,
        fillCustomNoteheadsDataFromComboboxes]

theorem unique_set (d : Drumset) (p : Pitch) (e : DrumInstrument)
    (hu : UniqueShortcuts d)
    (hfree : ∀ q : Pitch, q ≠ p → (d q).shortcut = e.shortcut → e.shortcut = Char.ofNat 0) :
    UniqueShortcuts (d.set p e) := by
  intro i j hij hne
  by_cases hi : i = p <;> by_cases hj : j = p
  · rw [hi, hj]
  · subst hi
    rw [Drumset.set_same, Drumset.set_other _ _ _ _ hj] at hij
    rw [Drumset.set_same] at hne
    exact absurd (hfree j hj hij.symm) hne
  · subst hj
    rw [Drumset.set_same, Drumset.set_other _ _ _ _ hi] at hij
    rw [Drumset.set_other _ _ _ _ hi] at hne
    exact absurd (hij ▸ hfree i hi hij) hne
  · rw [Drumset.set_other _ _ _ _ hi, Drumset.set_other _ _ _ _ hj] at hij
    rw [Drumset.set_other _ _ _ _ hi] at hne
    exact hu i j hij hne

theorem committedShortcut_fin {env : Env} (k : Fin 8) (c : Char) :
    committedShortcut (k.val : Int) c = shortcutLetter env (k.val : Int) := by
  unfold committedShortcut
  split
  · fin_cases k <;> rfl
  · rename_i h
    have h2 : qcharString c = shortcutText (k.val : Int) := not_not.1 h
    fin_cases k
    all_goals first
      | exact ((qcharString_inj _ _).1 h2)
      | (exfalso
         have h3 := congrArg String.length h2
         rw [qcharString_length] at h3
         revert h3; decide)

theorem valueChanged_drumset (env : Env) (s : Dialog) (p : Pitch)
    (hcur : s.currentItem = some p) :
    ∃ e : DrumInstrument,
      e.shortcut = committedShortcut s.shortcut (s.m_editedDrumset p).shortcut ∧
      (valueChanged env s).m_editedDrumset = s.m_editedDrumset.set p e := by
  by_cases hcond : s.customGbox = true ∨ s.noteHead = findData noteHeadNames .HEAD_CUSTOM
  · refine ⟨customEntry env s (s.m_editedDrumset p), rfl, ?_⟩
    rcases valueChanged_custom env s p hcur hcond with h | h <;> rw [h] <;> rfl
  · refine ⟨presetEntry s (s.m_editedDrumset p), rfl, ?_⟩
    have hc : s.customGbox = false := by
      cases hb : s.customGbox
      · rfl
      · exact absurd (Or.inl hb) hcond
    rw [valueChanged_preset env s p hcur hc (fun h => hcond (Or.inr h))]
    rfl

/-! ## Reading back what `save` writes -/

theorem load_recordOf (c d : Drumset) (p : Pitch) :
    c.load (recordOf d p) = c.set p (loadedEntry d p (c p)) := by
  unfold Drumset.load recordOf loadedEntry
  by_cases h : (d p).notehead = .HEAD_CUSTOM <;> simp [h]

theorem foldl_load_apply (d : Drumset) (l : List Pitch) :
    ∀ (c : Drumset) (q : Pitch),
      ((l.map (recordOf d)).foldl Drumset.load c) q =
        if q ∈ l then loadedEntry d q (c q) else c q := by
  induction l with
  | nil => intro c q; simp
  | cons i l ih =>
    intro c q
    rw [List.map_cons, List.foldl_cons, ih, load_recordOf]
    by_cases hq : q = i
    · subst hq
      simp only [Drumset.set_same, List.mem_cons, true_or, if_true]
      split
      · unfold loadedEntry; split <;> rfl
      · rfl
    · simp [Drumset.set_other _ _ _ _ hq, hq]

theorem save_load_apply (c d : Drumset) (q : Pitch) :
    (d.save.foldl Drumset.load c.clear) q =
      if d.isValid q then loadedEntry d q unusedDrum else unusedDrum := by
  unfold Drumset.save
  rw [foldl_load_apply]
  simp [List.mem_filter, List.mem_finRange, Drumset.clear]

theorem loadLoop_records (env : Env) (answer : Nat → Button) (rs : List DrumRecord)
    (rest : List Token) :
    ∀ s : Dialog,
      loadLoop env answer (.inner 0) s
        ((rs.flatMap fun r =>
          [Token.startElement { name := "Drum", version := "", record := some r },
           Token.endElement]) ++ rest) =
      loadLoop env answer (.inner 0)
        { s with m_editedDrumset := rs.foldl Drumset.load s.m_editedDrumset } rest := by
  induction rs with
  | nil => intro s; rfl
  | cons r rs ih =>
    intro s
    simp only [List.flatMap_cons, List.cons_append, List.nil_append, List.foldl_cons]
    simp only [loadLoop, if_true]
    rw [ih]

theorem load_fileOf (env : Env) (fname : String) (hf : fname.isEmpty = false)
    (answer : Nat → Button) (d : Drumset) (t : Dialog) :
    load env fname (some (fileOf env d)) answer t =
      updatePitchesList env
        { t with m_editedDrumset := d.save.foldl Drumset.load t.m_editedDrumset.clear } := by
  unfold load fileOf
  simp only [hf, Bool.false_eq_true, if_false]
  simp only [loadLoop, if_true, ne_eq, not_true_eq_false, if_false]
  exact (loadLoop_records env answer d.save [Token.endElement] _).trans
    (by simp only [loadLoop])

theorem save_opened (env : Env) (fname : String) (hf : fname.isEmpty = false)
    (writeOk : Bool) (s : Dialog) :
    (save env fname true writeOk s).2 = some (fileOf env (valueChanged env s).m_editedDrumset) ∧
    (save env fname true writeOk s).1.m_editedDrumset = (valueChanged env s).m_editedDrumset := by
  cases writeOk <;> simp [save, hf]

theorem updatePitchesList_drumset (env : Env) (s : Dialog) :
    (updatePitchesList env s).m_editedDrumset =
      (selectionChanged env none s).m_editedDrumset := rfl

theorem updatePitchesList_drumset_none (env : Env) (s : Dialog) (h : s.currentItem = none) :
    (updatePitchesList env s).m_editedDrumset = s.m_editedDrumset := by
  rw [updatePitchesList_drumset]
  unfold selectionChanged itemChanged
  rw [h]

theorem sameEntry_loadedEntry (d : Drumset) (p : Pitch) (x : DrumInstrument) :
    SameEntry (loadedEntry d p x) (d p) := by
  refine ⟨rfl, rfl, ?_, rfl, rfl, rfl, rfl⟩
  intro h
  simp [loadedEntry, h]

/-! ## Toggling the custom box -/

theorem toggleCustom_on (env : Env) (s : Dialog) (p : Pitch)
    (hcur : s.currentItem = some p) (hc : s.customGbox = false)
    (hb : s.noteHeadBlocked = false) :
    toggleCustom env true s =
      if s.noteHead = findData noteHeadNames .HEAD_CUSTOM then
        { s with customGbox := true, noteHeadEnabled := false }
      else
        customResult env p
          { s with customGbox := true, noteHeadEnabled := false,
                   noteHead := findData noteHeadNames .HEAD_CUSTOM } := by
  have h21 : comboIndex noteHeadNames.length (findData noteHeadNames .HEAD_CUSTOM) =
      findData noteHeadNames .HEAD_CUSTOM := by decide
  have hb2 : ¬ s.noteHeadBlocked = true := by simp [hb]
  have hc2 : ¬ s.customGbox = true := by simp [hc]
  unfold toggleCustom customGbox_setChecked
  rw [if_neg hc2]
  unfold customGboxToggledWith noteHead_setCurrentIndex
  dsimp only
  simp only [if_true, h21]
  by_cases hidx : s.noteHead = findData noteHeadNames .HEAD_CUSTOM
  · rw [if_pos hidx, if_pos hidx]; rfl
  · rw [if_neg hidx, if_neg hidx, if_neg hb2]
    exact valueChanged_custom_settled_eq env _ p hcur rfl

theorem toggleCustom_off (env : Env) (s : Dialog) (p : Pitch)
    (hcur : s.currentItem = some p) (hc : s.customGbox = true)
    (hidx : s.noteHead = findData noteHeadNames .HEAD_CUSTOM)
    (hb : s.noteHeadBlocked = false) :
    toggleCustom env false s =
      presetResult env p
        { s with customGbox := false, noteHeadEnabled := true,
                 noteHead := findData noteHeadNames .HEAD_NORMAL } := by
  have h0 : comboIndex noteHeadNames.length (findData noteHeadNames .HEAD_NORMAL) =
      findData noteHeadNames .HEAD_NORMAL := by decide
  have hb2 : ¬ s.noteHeadBlocked = true := by simp [hb]
  have hc2 : ¬ s.customGbox = false := by simp [hc]
  have hne : ¬ s.noteHead = findData noteHeadNames .HEAD_NORMAL := by
    rw [hidx]; decide
  unfold toggleCustom customGbox_setChecked
  rw [if_neg hc2]
  unfold customGboxToggledWith noteHead_setCurrentIndex
  dsimp only
  simp only [Bool.false_eq_true, if_false, h0]
  rw [if_neg hne, if_neg hb2]
  exact valueChanged_preset env _ p hcur rfl
    (show findData noteHeadNames .HEAD_NORMAL ≠ findData noteHeadNames .HEAD_CUSTOM by decide)

/-- Toggling to custom mode and back leaves the entry of the selected pitch in
preset mode with the group HEAD_NORMAL. -/
theorem toggle_on_off_entry (env : Env) (s : Dialog) (p : Pitch)
    (hcur : s.currentItem = some p) (hc : s.customGbox = false)
    (hb : s.noteHeadBlocked = false) :
    ((toggleCustom env false (toggleCustom env true s)).m_editedDrumset p).notehead =
      .HEAD_NORMAL := by
  have hon := toggleCustom_on env s p hcur hc hb
  have hprops : (toggleCustom env true s).currentItem = some p ∧
      (toggleCustom env true s).customGbox = true ∧
      (toggleCustom env true s).noteHead = findData noteHeadNames .HEAD_CUSTOM ∧
      (toggleCustom env true s).noteHeadBlocked = false := by
    rw [hon]
    split
    · rename_i h; exact ⟨hcur, rfl, h, hb⟩
    · exact ⟨hcur, rfl, rfl, hb⟩
  rw [toggleCustom_off env _ p hprops.1 hprops.2.1 hprops.2.2.1 hprops.2.2.2]
  simp [presetResult, presetEntry]
  decide

theorem itemChanged_replaced (env : Env) (current previous : Option Pitch) (s : Dialog) :
    (itemChanged env current previous s).replaced = s.replaced := by
  unfold itemChanged
  cases previous with
  | none =>
    cases current with
    | none => rfl
    | some c => exact (populate_silent env c s).1
  | some q =>
    have hc : (commitPrevious env q s).replaced = s.replaced := by
      rw [commitPrevious_eq]
    cases current with
    | none => exact hc
    | some c => exact ((populate_silent env c _).1).trans hc

theorem customResult_again (env : Env) (p : Pitch) (s t : Dialog)
    (ht : t = customResult env p s ∨
      t = { customResult env p s with
        replaced :=
          (s.m_instrumentKey,
            s.m_editedDrumset.set p (customEntry env s (s.m_editedDrumset p))) ::
          (s.m_instrumentKey,
            s.m_editedDrumset.set p (customEntry env s (s.m_editedDrumset p))) ::
          s.replaced }) :
    SameDrumsetAndControls (customResult env p t) t := by
  rcases ht with rfl | rfl <;>
    simp [SameDrumsetAndControls, customResult, customEntry, committedShortcut_idem]

theorem presetResult_again (env : Env) (p : Pitch) (s : Dialog) :
    SameDrumsetAndControls (presetResult env p (presetResult env p s))
      (presetResult env p s) := by
  simp [SameDrumsetAndControls, presetResult, presetEntry, committedShortcut_idem]

/-! ## Filling the controls from a row -/

theorem Dialog.eta_name (s : Dialog) : ({ s with name := s.name } : Dialog) = s := rfl

theorem setDrum_self (s : Dialog) (p : Pitch) : s.setDrum p (s.m_editedDrumset p) = s := by
  unfold Dialog.setDrum
  rw [Drumset.set_self]

theorem name_setText_stored (env : Env) (s : Dialog) (q : Pitch)
    (hcur : s.currentItem = some q) :
    name_setText env (qtrc (s.m_editedDrumset q).name) s =
      { s with
        name := (s.m_editedDrumset q).name
        itemName :=
          if s.name = (s.m_editedDrumset q).name then s.itemName
          else fun r => if r = q then (s.m_editedDrumset q).name else s.itemName r
        noteHeadEnabled :=
          if s.name = (s.m_editedDrumset q).name then s.noteHeadEnabled
          else !(s.m_editedDrumset q).name.isEmpty
        pitchControlsEnabled :=
          if s.name = (s.m_editedDrumset q).name then s.pitchControlsEnabled
          else !(s.m_editedDrumset q).name.isEmpty } := by
  unfold name_setText qtrc
  by_cases h : s.name = (s.m_editedDrumset q).name
  · simp only [h, if_true]
    rw [← h]
  · simp only [h, if_false]
    unfold nameChanged setEnabledPitchControls
    simp only [hcur]
    cases hE : (s.m_editedDrumset q).name.isEmpty
    · simp [Drumset.isValid, hE]
    · have hnm : (s.m_editedDrumset q).name = "" := (String.isEmpty_iff _).1 hE
      have hself : ({ s.m_editedDrumset q with name := "" } : DrumInstrument) =
          s.m_editedDrumset q := by
        conv_rhs => rw [show s.m_editedDrumset q =
          { s.m_editedDrumset q with name := (s.m_editedDrumset q).name } from rfl]
        rw [hnm]
      simp [Dialog.setDrum, hself, Drumset.set_self]

theorem noteHead_setCurrentIndex_blocked_eq (vc : Dialog → Dialog) (i : Int) (s : Dialog)
    (hb : s.noteHeadBlocked = true) :
    noteHead_setCurrentIndex vc i s =
      { s with noteHead := comboIndex noteHeadNames.length i } := by
  rw [noteHead_setCurrentIndex_blocked vc i s hb]
  split
  · rename_i h
    rw [← h]
  · rfl

theorem setCustomNoteheadsGUIEnabledWith_blocked (vc : Dialog → Dialog) (c : Bool)
    (s : Dialog) (hb : s.noteHeadBlocked = true) :
    setCustomNoteheadsGUIEnabledWith vc c s =
      { s with
        customGbox := c
        noteHeadEnabled := !c
        noteHead :=
          if c then findData noteHeadNames .HEAD_CUSTOM
          else if s.customGbox = c then s.noteHead
          else findData noteHeadNames .HEAD_NORMAL } := by
  have h21 : comboIndex noteHeadNames.length (findData noteHeadNames .HEAD_CUSTOM) =
      findData noteHeadNames .HEAD_CUSTOM := by decide
  have h0 : comboIndex noteHeadNames.length (findData noteHeadNames .HEAD_NORMAL) =
      findData noteHeadNames .HEAD_NORMAL := by decide
  unfold setCustomNoteheadsGUIEnabledWith customGbox_setChecked customGboxToggledWith
  by_cases hc : s.customGbox = c
  · cases c <;>
      simp [hc, noteHead_setCurrentIndex_blocked_eq, hb, h21]
  · cases c <;>
      simp [hc, noteHead_setCurrentIndex_blocked_eq, hb, h21, h0]

theorem quarterCmb_setCurrentIndex_eq (env : Env) (i : Int) (s : Dialog) (q : Pitch)
    (hcur : s.currentItem = some q) :
    quarterCmb_setCurrentIndex env i s =
      { s with
        quarterCmb := comboIndex env.resNoteheads.length i
        drumNote :=
          if s.quarterCmb = comboIndex env.resNoteheads.length i then s.drumNote
          else previewOf env s.m_editedDrumset q (comboIndex env.resNoteheads.length i) } := by
  unfold quarterCmb_setCurrentIndex customQuarterChanged
  dsimp only
  split
  · rename_i h
    rw [← h]
  · exact updateExample_some env _ q hcur

theorem drum_shortcut_zero (e : DrumInstrument) (h : e.shortcut = Char.ofNat 0) :
    ({ e with shortcut := Char.ofNat 0 } : DrumInstrument) = e := by
  cases e
  simp_all

theorem clearConflicts_zero (q : Pitch) (d : Drumset) :
    clearConflicts q (Char.ofNat 0) d = d := by
  funext j
  rw [clearConflicts_apply]
  split
  · rename_i h
    exact drum_shortcut_zero _ h.2
  · rfl

theorem shortcutIndexOf_letter {env : Env} (k : Fin 7) :
    shortcutIndexOf (letterAt env (k.val : Int)) = (k.val : Int) := by
  rw [letterAt_fin7]
  fin_cases k <;> decide

theorem shortcutText_seven_ne (c : Char) : qcharString c ≠ shortcutText 7 := by
  intro h
  have h3 := congrArg String.length h
  rw [qcharString_length] at h3
  revert h3
  decide

theorem shortcutChanged_seven {env : Env} (s : Dialog) (q : Pitch) (hcur : s.currentItem = some q)
    (h7 : s.shortcut = 7) :
    (shortcutChanged env s).m_editedDrumset =
      s.m_editedDrumset.set q { s.m_editedDrumset q with shortcut := Char.ofNat 0 } := by
  have hg : qcharString (s.m_editedDrumset q).shortcut ≠ shortcutText s.shortcut := by
    rw [h7]; exact shortcutText_seven_ne _
  rw [shortcutChanged_drumset_of_guard s q hcur hg]
  simp only [h7, if_true, clearConflicts_zero]

/-- Filling the shortcut box from a stored shortcut that the box can show
leaves the drumset as it is. -/
theorem shortcut_setCurrentIndex_stored {env : Env} (s : Dialog) (q : Pitch)
    (hcur : s.currentItem = some q) (hok : ShownShortcut (s.m_editedDrumset q).shortcut) :
    (shortcut_setCurrentIndex env (shortcutIndexOf (s.m_editedDrumset q).shortcut) s
      ).m_editedDrumset = s.m_editedDrumset ∧
    (shortcut_setCurrentIndex env (shortcutIndexOf (s.m_editedDrumset q).shortcut) s
      ).shortcut = shortcutIndexOf (s.m_editedDrumset q).shortcut := by
  unfold shortcut_setCurrentIndex
  dsimp only
  rcases shownShortcut_cases env _ hok with h0 | ⟨k, hk⟩
  · have hi : comboIndex shortcutItems.length (shortcutIndexOf (s.m_editedDrumset q).shortcut)
        = 7 := by rw [h0]; decide
    have hi2 : shortcutIndexOf (s.m_editedDrumset q).shortcut = 7 := by rw [h0]; decide
    rw [hi, hi2]
    split
    · rename_i h; exact ⟨rfl, h⟩
    · refine ⟨?_, (shortcutChanged_silent_shortcut _).trans rfl⟩
      rw [shortcutChanged_seven { s with shortcut := 7 } q hcur rfl]
      show s.m_editedDrumset.set q { s.m_editedDrumset q with shortcut := Char.ofNat 0 } = _
      rw [drum_shortcut_zero _ h0, Drumset.set_self]
  · have hi2 : shortcutIndexOf (s.m_editedDrumset q).shortcut = (k.val : Int) := by
      rw [hk]; exact shortcutIndexOf_letter k
    have hi : comboIndex shortcutItems.length (k.val : Int) = (k.val : Int) := by
      fin_cases k <;> decide
    rw [hi2, hi]
    split
    · rename_i h; exact ⟨rfl, h⟩
    · refine ⟨?_, (shortcutChanged_silent_shortcut _).trans rfl⟩
      refine shortcutChanged_drumset_of_not_guard { s with shortcut := (k.val : Int) } q hcur ?_
      show ¬ qcharString (s.m_editedDrumset q).shortcut ≠ shortcutText (k.val : Int)
      rw [hk, shortcutText_letter env]
      simp

theorem populate_shortcut_step {env : Env} (s : Dialog) (q : Pitch) :
    (if (s.m_editedDrumset q).shortcut = Char.ofNat 0 then shortcut_setCurrentIndex env 7 s
      else shortcut_setCurrentIndex env
        (((s.m_editedDrumset q).shortcut.toNat : Int) - (('A').toNat : Int)) s) =
    shortcut_setCurrentIndex env (shortcutIndexOf (s.m_editedDrumset q).shortcut) s := by
  unfold shortcutIndexOf
  split <;> rfl

theorem shortcutChanged_of_not_guard {env : Env} (s : Dialog) (q : Pitch)
    (hcur : s.currentItem = some q)
    (hg : ¬ qcharString (s.m_editedDrumset q).shortcut ≠ shortcutText s.shortcut) :
    shortcutChanged env s = refreshPitchesList s := by
  simp only [shortcutChanged, hcur]
  rw [if_neg hg]

theorem shortcutChanged_seven_eq {env : Env} (s : Dialog) (q : Pitch) (hcur : s.currentItem = some q)
    (h7 : s.shortcut = 7) (h0 : (s.m_editedDrumset q).shortcut = Char.ofNat 0) :
    shortcutChanged env s = refreshPitchesList s := by
  have hg : qcharString (s.m_editedDrumset q).shortcut ≠ shortcutText s.shortcut := by
    rw [h7]; exact shortcutText_seven_ne _
  have hd : (clearConflicts q (Char.ofNat 0) s.m_editedDrumset).set q
      { clearConflicts q (Char.ofNat 0) s.m_editedDrumset q with shortcut := Char.ofNat 0 } =
      s.m_editedDrumset := by
    rw [clearConflicts_zero, drum_shortcut_zero _ h0, Drumset.set_self]
  simp only [shortcutChanged, hcur]
  rw [if_pos hg]
  simp only [h7, if_true, hd, refreshPitchesList]
  rw [hcur]

/-- Filling the shortcut box from a stored shortcut that the box can show:
the box takes the index of the shortcut and, when that is a change of index,
the rows of the list are refreshed; the drumset stays as it is. -/
theorem shortcut_setCurrentIndex_stored_eq {env : Env} (s : Dialog) (q : Pitch)
    (hcur : s.currentItem = some q) (hok : ShownShortcut (s.m_editedDrumset q).shortcut) :
    shortcut_setCurrentIndex env (shortcutIndexOf (s.m_editedDrumset q).shortcut) s =
      if s.shortcut = shortcutIndexOf (s.m_editedDrumset q).shortcut then s
      else refreshPitchesList
        { s with shortcut := shortcutIndexOf (s.m_editedDrumset q).shortcut } := by
  unfold shortcut_setCurrentIndex
  dsimp only
  rcases shownShortcut_cases env _ hok with h0 | ⟨k, hk⟩
  · have hi2 : shortcutIndexOf (s.m_editedDrumset q).shortcut = 7 := by rw [h0]; decide
    have hi : comboIndex shortcutItems.length 7 = 7 := by decide
    rw [hi2, hi]
    split
    · rfl
    · exact shortcutChanged_seven_eq { s with shortcut := 7 } q hcur rfl h0
  · have hi2 : shortcutIndexOf (s.m_editedDrumset q).shortcut = (k.val : Int) := by
      rw [hk]; exact shortcutIndexOf_letter k
    have hi : comboIndex shortcutItems.length (k.val : Int) = (k.val : Int) := by
      fin_cases k <;> decide
    rw [hi2, hi]
    split
    · rfl
    · refine shortcutChanged_of_not_guard { s with shortcut := (k.val : Int) } q hcur ?_
      show ¬ qcharString (s.m_editedDrumset q).shortcut ≠ shortcutText (k.val : Int)
      rw [hk, shortcutText_letter env]
      simp

theorem shortcut_setCurrentIndex_shown {env : Env} (i : Int) (s : Dialog) (q : Pitch) (c : Char)
    (hcur : s.currentItem = some q) (hc : (s.m_editedDrumset q).shortcut = c)
    (hok : ShownShortcut c) (hi : i = shortcutIndexOf c) :
    shortcut_setCurrentIndex env i s =
      if s.shortcut = i then s else refreshPitchesList { s with shortcut := i } := by
  subst hc
  subst hi
  exact shortcut_setCurrentIndex_stored_eq s q hcur hok

theorem populate_eq (env : Env) (q : Pitch) (s : Dialog)
    (hcur : s.currentItem = some q) (hok : ShownShortcut (s.m_editedDrumset q).shortcut) :
    populate env q s = populateResult env q s := by
  unfold populate
  dsimp only
  have e1 := name_setText_stored env { s with noteHeadBlocked := true } q hcur
  dsimp only at e1
  rw [e1]
  dsimp only
  rw [populate_shortcut_step]
  have hq := fun i t h => quarterCmb_setCurrentIndex_eq env i t q h
  have h8 := fun i t h1 h2 h3 =>
    @shortcut_setCurrentIndex_shown env i t q (s.m_editedDrumset q).shortcut h1 h2 hok h3
  have hu := fun t h => updateExample_some env t q h
  by_cases hv : s.m_editedDrumset.isValid q = true <;>
  by_cases hcust : (s.m_editedDrumset q).notehead = .HEAD_CUSTOM <;>
  by_cases hinv : (s.m_editedDrumset q).notehead = .HEAD_INVALID <;>
  by_cases hsh : s.shortcut = shortcutIndexOf (s.m_editedDrumset q).shortcut <;>
  simp [hv, hcust, hinv, hsh, setCustomNoteheadsGUIEnabled,
    setCustomNoteheadsGUIEnabledWith_blocked, noteHead_setCurrentIndex_blocked_eq,
    fillNoteheadsComboboxes, setNoteheadCombos, hq, h8, hu, populateResult, hcur,
    refreshPitchesList]

theorem comboIndex_shortcut_cases (i : Int) :
    comboIndex shortcutItems.length i = -1 ∨ comboIndex shortcutItems.length i = 7 ∨
    ∃ k : Fin 7, comboIndex shortcutItems.length i = (k.val : Int) ∧ i = (k.val : Int) := by
  have hlen : ((shortcutItems.length : Nat) : Int) = 8 := rfl
  unfold comboIndex
  rw [hlen]
  split
  · rename_i h
    by_cases h7 : i = 7
    · right; left; exact h7
    · right; right
      have hk : ((i.toNat : Nat) : Int) = i := Int.toNat_of_nonneg h.1
      exact ⟨⟨i.toNat, by omega⟩, hk.symm, hk.symm⟩
  · left; rfl

theorem indexedShortcut_of_shown (c : Char) (h : ShownShortcut c) : IndexedShortcut c := by
  unfold ShownShortcut letters at h
  simp only [List.mem_cons, List.mem_singleton, List.not_mem_nil, or_false] at h
  unfold IndexedShortcut
  rcases h with h | h | h | h | h | h | h | h <;> rw [h] <;> decide

theorem char_of_index {env : Env} (c : Char) (k : Fin 7)
    (h : (c.toNat : Int) - (('A').toNat : Int) = (k.val : Int)) :
    c = letterAt env (k.val : Int) := by
  have hc : c.toNat = 65 + k.val := by
    have h65 : (('A').toNat : Int) = 65 := by decide
    rw [h65] at h
    omega
  rw [← Char.ofNat_toNat c, hc, letterAt_fin7]
  fin_cases k <;> decide

/-- When the shortcut box has an index for the stored shortcut, the eviction
loop reached through the box while a row is filled writes the character none:
a letter is never evicted from another row. -/
theorem populate_shortcut_sc {env : Env} (s : Dialog) (q : Pitch) (i : Int)
    (hi : i = shortcutIndexOf (s.m_editedDrumset q).shortcut)
    (hin : comboIndex shortcutItems.length i ≠ -1)
    (hg : qcharString (s.m_editedDrumset q).shortcut ≠
      shortcutText (comboIndex shortcutItems.length i)) :
    (if comboIndex shortcutItems.length i = 7 then Char.ofNat 0
      else letterAt env (comboIndex shortcutItems.length i)) = Char.ofNat 0 := by
  split
  · rfl
  · rename_i h7
    exfalso
    rcases comboIndex_shortcut_cases i with h | h | ⟨k, hk, hik⟩
    · exact hin h
    · exact h7 h
    · have hc0 : (s.m_editedDrumset q).shortcut ≠ Char.ofNat 0 := by
        intro h0
        rw [h0] at hi
        have : i = 7 := by rw [hi]; decide
        have := k.isLt
        omega
      have hidx : ((s.m_editedDrumset q).shortcut.toNat : Int) - (('A').toNat : Int) =
          (k.val : Int) := by
        rw [← hik, hi]
        unfold shortcutIndexOf
        rw [if_neg hc0]
      have hc : (s.m_editedDrumset q).shortcut = letterAt env (k.val : Int) :=
        char_of_index _ k hidx
      apply hg
      rw [hk, shortcutText_letter env, ← hc]

theorem shortcut_setCurrentIndex_frame {env : Env} (s : Dialog) (q : Pitch) (i : Int)
    (hcur : s.currentItem = some q)
    (hi : i = shortcutIndexOf (s.m_editedDrumset q).shortcut)
    (hin : comboIndex shortcutItems.length i ≠ -1) :
    (shortcut_setCurrentIndex env i s).m_editedDrumset = s.m_editedDrumset ∨
    (shortcut_setCurrentIndex env i s).m_editedDrumset =
      s.m_editedDrumset.set q { s.m_editedDrumset q with shortcut := Char.ofNat 0 } := by
  unfold shortcut_setCurrentIndex
  dsimp only
  split
  · left; rfl
  · by_cases hg : qcharString (s.m_editedDrumset q).shortcut ≠
        shortcutText (comboIndex shortcutItems.length i)
    · right
      have hsc : (if comboIndex shortcutItems.length i = 7 then Char.ofNat 0
          else letterAt env (comboIndex shortcutItems.length i)) = Char.ofNat 0 :=
        populate_shortcut_sc s q i hi hin hg
      rw [shortcutChanged_drumset_of_guard
        { s with shortcut := comboIndex shortcutItems.length i } q hcur hg]
      dsimp only
      rw [hsc, clearConflicts_zero]
    · left
      exact shortcutChanged_drumset_of_not_guard
        { s with shortcut := comboIndex shortcutItems.length i } q hcur hg

/-- Up to the shortcut box, filling the controls from the current row `q`
changes neither the drumset nor the index of the shortcut box. -/
theorem populate_before_shortcut (env : Env) (q : Pitch) (s : Dialog)
    (hcur : s.currentItem = some q) :
    ∃ X : Dialog, X.m_editedDrumset = s.m_editedDrumset ∧ X.currentItem = some q ∧
      X.shortcut = s.shortcut ∧
      populate env q s = updateExample env
        { shortcut_setCurrentIndex env (shortcutIndexOf (X.m_editedDrumset q).shortcut) X with
          noteHeadBlocked := false } := by
  unfold populate
  dsimp only
  have e1 := name_setText_stored env { s with noteHeadBlocked := true } q hcur
  dsimp only at e1
  rw [e1]
  dsimp only
  rw [populate_shortcut_step]
  have hq := fun i t h => quarterCmb_setCurrentIndex_eq env i t q h
  refine ⟨_, ?_, ?_, ?_, rfl⟩
  · rw [fillNoteheadsComboboxes_drumset]
    by_cases hv : s.m_editedDrumset.isValid q = true <;>
      simp [hv, setCustomNoteheadsGUIEnabled, setCustomNoteheadsGUIEnabledWith_blocked,
        noteHead_setCurrentIndex_blocked_eq]
  · rw [(fillNoteheadsComboboxes_silent _ _ _ _).2.2.2.2.1]
    by_cases hv : s.m_editedDrumset.isValid q = true <;>
      simp [hv, setCustomNoteheadsGUIEnabled, setCustomNoteheadsGUIEnabledWith_blocked,
        noteHead_setCurrentIndex_blocked_eq, hcur]
  · by_cases hv : s.m_editedDrumset.isValid q = true <;>
    by_cases hcust : (s.m_editedDrumset q).notehead = .HEAD_CUSTOM <;>
    by_cases hinv : (s.m_editedDrumset q).notehead = .HEAD_INVALID <;>
      simp [hv, hcust, hinv, setCustomNoteheadsGUIEnabled,
        setCustomNoteheadsGUIEnabledWith_blocked, noteHead_setCurrentIndex_blocked_eq,
        fillNoteheadsComboboxes, setNoteheadCombos, hq, hcur]

theorem shortcutChanged_controls {env : Env} (s : Dialog) :
    (shortcutChanged env s).customGbox = s.customGbox ∧
    (shortcutChanged env s).noteHead = s.noteHead ∧
    (shortcutChanged env s).wholeCmb = s.wholeCmb ∧
    (shortcutChanged env s).halfCmb = s.halfCmb ∧
    (shortcutChanged env s).quarterCmb = s.quarterCmb ∧
    (shortcutChanged env s).doubleWholeCmb = s.doubleWholeCmb := by
  unfold shortcutChanged
  split
  · exact ⟨rfl, rfl, rfl, rfl, rfl, rfl⟩
  · dsimp only [refreshPitchesList]
    split <;> exact ⟨rfl, rfl, rfl, rfl, rfl, rfl⟩

theorem shortcut_setCurrentIndex_controls {env : Env} (i : Int) (s : Dialog) :
    (shortcut_setCurrentIndex env i s).customGbox = s.customGbox ∧
    (shortcut_setCurrentIndex env i s).noteHead = s.noteHead ∧
    (shortcut_setCurrentIndex env i s).wholeCmb = s.wholeCmb ∧
    (shortcut_setCurrentIndex env i s).halfCmb = s.halfCmb ∧
    (shortcut_setCurrentIndex env i s).quarterCmb = s.quarterCmb ∧
    (shortcut_setCurrentIndex env i s).doubleWholeCmb = s.doubleWholeCmb := by
  unfold shortcut_setCurrentIndex
  dsimp only
  split
  · exact ⟨rfl, rfl, rfl, rfl, rfl, rfl⟩
  · exact shortcutChanged_controls { s with shortcut := comboIndex shortcutItems.length i }

theorem updateExample_controls (env : Env) (s : Dialog) (q : Pitch)
    (hcur : s.currentItem = some q) :
    (updateExample env s).customGbox = s.customGbox ∧
    (updateExample env s).noteHead = s.noteHead ∧
    (updateExample env s).wholeCmb = s.wholeCmb ∧
    (updateExample env s).halfCmb = s.halfCmb ∧
    (updateExample env s).quarterCmb = s.quarterCmb ∧
    (updateExample env s).doubleWholeCmb = s.doubleWholeCmb ∧
    (updateExample env s).currentItem = some q ∧
    (updateExample env s).noteHeadBlocked = s.noteHeadBlocked := by
  rw [updateExample_some env s q hcur]
  exact ⟨rfl, rfl, rfl, rfl, rfl, rfl, hcur, rfl⟩

/-- The custom box, the `noteHead` box and the four custom boxes after
`populate` are those of its closed form, whatever the stored shortcut. -/
theorem populate_controls (env : Env) (q : Pitch) (s : Dialog)
    (hcur : s.currentItem = some q) :
    (populate env q s).customGbox = (populateResult env q s).customGbox ∧
    (populate env q s).noteHead = (populateResult env q s).noteHead ∧
    (populate env q s).wholeCmb = (populateResult env q s).wholeCmb ∧
    (populate env q s).halfCmb = (populateResult env q s).halfCmb ∧
    (populate env q s).quarterCmb = (populateResult env q s).quarterCmb ∧
    (populate env q s).doubleWholeCmb = (populateResult env q s).doubleWholeCmb ∧
    (populate env q s).currentItem = some q ∧
    (populate env q s).noteHeadBlocked = false := by
  have key : ∃ X : Dialog, X.currentItem = some q ∧
      (X.customGbox = (populateResult env q s).customGbox ∧
       X.noteHead = (populateResult env q s).noteHead ∧
       X.wholeCmb = (populateResult env q s).wholeCmb ∧
       X.halfCmb = (populateResult env q s).halfCmb ∧
       X.quarterCmb = (populateResult env q s).quarterCmb ∧
       X.doubleWholeCmb = (populateResult env q s).doubleWholeCmb) ∧
      populate env q s = updateExample env
        { shortcut_setCurrentIndex env (shortcutIndexOf (X.m_editedDrumset q).shortcut) X with
          noteHeadBlocked := false } := by
    unfold populate
    dsimp only
    have e1 := name_setText_stored env { s with noteHeadBlocked := true } q hcur
    dsimp only at e1
    rw [e1]
    dsimp only
    rw [populate_shortcut_step]
    have hq := fun i t h => quarterCmb_setCurrentIndex_eq env i t q h
    refine ⟨_, ?_, ?_, rfl⟩
    · rw [(fillNoteheadsComboboxes_silent _ _ _ _).2.2.2.2.1]
      by_cases hv : s.m_editedDrumset.isValid q = true <;>
        simp [hv, setCustomNoteheadsGUIEnabled, setCustomNoteheadsGUIEnabledWith_blocked,
          noteHead_setCurrentIndex_blocked_eq, hcur]
    · by_cases hv : s.m_editedDrumset.isValid q = true <;>
      by_cases hcust : (s.m_editedDrumset q).notehead = .HEAD_CUSTOM <;>
      by_cases hinv : (s.m_editedDrumset q).notehead = .HEAD_INVALID <;>
        simp [hv, hcust, hinv, setCustomNoteheadsGUIEnabled,
          setCustomNoteheadsGUIEnabledWith_blocked, noteHead_setCurrentIndex_blocked_eq,
          fillNoteheadsComboboxes, setNoteheadCombos, hq, hcur, populateResult]
  obtain ⟨X, hc, hX, hp⟩ := key
  have hs := @shortcut_setCurrentIndex_controls env
    (shortcutIndexOf (X.m_editedDrumset q).shortcut) X
  have hcs : (shortcut_setCurrentIndex env (shortcutIndexOf (X.m_editedDrumset q).shortcut) X
      ).currentItem = some q :=
    (shortcut_setCurrentIndex_silent _ X).2.2.2.2.1.trans hc
  have hu := updateExample_controls env
    { shortcut_setCurrentIndex env (shortcutIndexOf (X.m_editedDrumset q).shortcut) X with
      noteHeadBlocked := false } q hcs
  rw [hp]
  exact ⟨hu.1.trans (hs.1.trans hX.1), hu.2.1.trans (hs.2.1.trans hX.2.1),
    hu.2.2.1.trans (hs.2.2.1.trans hX.2.2.1),
    hu.2.2.2.1.trans (hs.2.2.2.1.trans hX.2.2.2.1),
    hu.2.2.2.2.1.trans (hs.2.2.2.2.1.trans hX.2.2.2.2.1),
    hu.2.2.2.2.2.1.trans (hs.2.2.2.2.2.trans hX.2.2.2.2.2),
    hu.2.2.2.2.2.2.1, hu.2.2.2.2.2.2.2⟩

/-- Filling the controls from row `q`, the current row, whose stored shortcut
has an index in the shortcut box, leaves the drumset as it is or, when the
stored shortcut is H (the index of the item "none"), with the shortcut of `q`
cleared to none. -/
theorem populate_drumset (env : Env) (q : Pitch) (s : Dialog)
    (hcur : s.currentItem = some q)
    (hin : IndexedShortcut (s.m_editedDrumset q).shortcut) :
    (populate env q s).m_editedDrumset = s.m_editedDrumset ∨
    (populate env q s).m_editedDrumset =
      s.m_editedDrumset.set q { s.m_editedDrumset q with shortcut := Char.ofNat 0 } := by
  obtain ⟨X, hd, hc, _, hp⟩ := populate_before_shortcut env q s hcur
  rw [hp, updateExample_drumset]
  show (shortcut_setCurrentIndex env _ X).m_editedDrumset = _ ∨
    (shortcut_setCurrentIndex env _ X).m_editedDrumset = _
  have hf := @shortcut_setCurrentIndex_frame env X q
    (shortcutIndexOf (X.m_editedDrumset q).shortcut) hc rfl (by rw [hd]; exact hin)
  rw [hd] at hf
  rw [hd]
  exact hf

/-- Filling the controls from a row whose stored shortcut maps to the item
"none" of the shortcut box while the box shows another item clears the stored
shortcut. -/
theorem populate_clears_shortcut (env : Env) (q : Pitch) (s : Dialog)
    (hcur : s.currentItem = some q)
    (h7 : shortcutIndexOf (s.m_editedDrumset q).shortcut = 7) (hs : s.shortcut ≠ 7) :
    ((populate env q s).m_editedDrumset q).shortcut = Char.ofNat 0 := by
  obtain ⟨X, hd, hc, hx, hp⟩ := populate_before_shortcut env q s hcur
  rw [hp, updateExample_drumset]
  show ((shortcut_setCurrentIndex env _ X).m_editedDrumset q).shortcut = _
  rw [hd, h7]
  unfold shortcut_setCurrentIndex
  have hi : comboIndex shortcutItems.length 7 = 7 := by decide
  dsimp only
  rw [hi, if_neg (by rw [hx]; exact hs),
    shortcutChanged_seven { X with shortcut := 7 } q hc rfl]
  simp

theorem populate_other (env : Env) (q r : Pitch) (s : Dialog)
    (hcur : s.currentItem = some q) (hr : r ≠ q)
    (hin : IndexedShortcut (s.m_editedDrumset q).shortcut) :
    (populate env q s).m_editedDrumset r = s.m_editedDrumset r := by
  rcases populate_drumset env q s hcur hin with h | h
  · rw [h]
  · rw [h, Drumset.set_other _ _ _ _ hr]

/-! ## Reading a combo box back -/

theorem currentData_findData_mem {α : Type} [DecidableEq α] (items : List α) (a : α)
    (h : a ∈ items) :
    currentData items (comboIndex items.length (findData items a)) = some a := by
  have hlt : items.indexOf a < items.length := List.indexOf_lt_length.2 h
  have hf : findData items a = (items.indexOf a : Int) := by
    unfold findData; rw [if_pos h]
  have hc : comboIndex items.length (findData items a) = (items.indexOf a : Int) := by
    rw [hf]; unfold comboIndex
    rw [if_pos ⟨by omega, by exact_mod_cast hlt⟩]
  rw [hc]
  unfold currentData
  rw [if_neg (by omega)]
  simpa using List.indexOf_get? h

theorem currentData_findData_not_mem {α : Type} [DecidableEq α] (items : List α) (a : α)
    (h : a ∉ items) :
    currentData items (comboIndex items.length (findData items a)) = none := by
  have hf : findData items a = -1 := by
    unfold findData; rw [if_neg h]
  rw [hf]
  unfold comboIndex currentData
  simp

theorem comboSym_findData (env : Env) (a : SymId) (h : a ∈ env.resNoteheads) :
    comboSym env (comboIndex env.resNoteheads.length (findData env.resNoteheads a)) = a := by
  unfold comboSym
  rw [currentData_findData_mem _ _ h]
  rfl

theorem shownShortcut_letter {env : Env} (k : Fin 8) :
    ShownShortcut (shortcutLetter env (k.val : Int)) := by
  unfold shortcutLetter
  by_cases h7 : (k.val : Int) = 7
  · rw [if_pos h7]; exact shownShortcut_zero
  · rw [if_neg h7]
    have hk : k.val < 7 := by have := k.isLt; omega
    exact shownShortcut_letterAt env ⟨k.val, hk⟩

theorem shortcutLetter_indexOf {env : Env} (c : Char) (h : ShownShortcut c) :
    shortcutLetter env (shortcutIndexOf c) = c := by
  rcases shownShortcut_cases env _ h with h0 | ⟨k, hk⟩
  · rw [h0]; rfl
  · rw [hk, shortcutIndexOf_letter]
    unfold shortcutLetter
    rw [if_neg (by have := k.isLt; omega)]

/-! ## A change of selection -/

theorem selectionChanged_some_prev (env : Env) (s : Dialog) (p : Pitch) (q : Option Pitch)
    (hcur : s.currentItem = some p) :
    selectionChanged env q s =
      match q with
      | none => commitPrevious env p { s with currentItem := q }
      | some r => populate env r (commitPrevious env p { s with currentItem := q }) := by
  unfold selectionChanged itemChanged
  simp only [hcur]

theorem selectionChanged_none_prev (env : Env) (s : Dialog) (q : Option Pitch)
    (hcur : s.currentItem = none) :
    selectionChanged env q s =
      match q with
      | none => { s with currentItem := q }
      | some r => populate env r { s with currentItem := q } := by
  unfold selectionChanged itemChanged
  simp only [hcur]

theorem commitPrevious_drumset (env : Env) (p : Pitch) (s : Dialog) :
    (commitPrevious env p s).m_editedDrumset =
      s.m_editedDrumset.set p (previousEntry env s (s.m_editedDrumset p)) ∧
    (commitPrevious env p s).currentItem = s.currentItem := by
  rw [commitPrevious_eq]
  exact ⟨rfl, rfl⟩

/-- The drumset after a change of selection from row `p` to `q`, when the
shortcut stored for `q` is one the shortcut box can show. -/
theorem selectionChanged_drumset (env : Env) (s : Dialog) (p : Pitch) (q : Option Pitch)
    (k : Fin 8) (hk : s.shortcut = (k.val : Int)) (hcur : s.currentItem = some p)
    (hq : ∀ r : Pitch, q = some r → ShownShortcut (s.m_editedDrumset r).shortcut) :
    (selectionChanged env q s).m_editedDrumset =
      s.m_editedDrumset.set p (previousEntry env s (s.m_editedDrumset p)) := by
  rw [selectionChanged_some_prev env s p q hcur]
  have hc := commitPrevious_drumset env p { s with currentItem := q }
  cases q with
  | none => exact hc.1
  | some r =>
    dsimp only
    have hok : ShownShortcut
        ((commitPrevious env p { s with currentItem := some r }).m_editedDrumset r).shortcut := by
      rw [hc.1]
      by_cases hr : r = p
      · subst hr
        rw [Drumset.set_same]
        show ShownShortcut (shortcutLetter env s.shortcut)
        rw [hk]
        exact shownShortcut_letter k
      · rw [Drumset.set_other _ _ _ _ hr]
        exact hq r rfl
    rw [populate_eq env r _ hc.2 hok]
    exact hc.1

theorem selectionChanged_clears_shortcut (env : Env) (s : Dialog) (p q : Pitch)
    (hcur : s.currentItem = some p) (hqp : q ≠ p)
    (h7 : shortcutIndexOf (s.m_editedDrumset q).shortcut = 7) (hs : s.shortcut ≠ 7) :
    ((selectionChanged env (some q) s).m_editedDrumset q).shortcut = Char.ofNat 0 := by
  rw [selectionChanged_some_prev env s p (some q) hcur]
  dsimp only
  have hc := commitPrevious_drumset env p { s with currentItem := some q }
  apply populate_clears_shortcut env q _ hc.2
  · rw [hc.1, Drumset.set_other _ _ _ _ hqp]
    exact h7
  · rw [commitPrevious_eq]
    exact hs

/-- Selecting a row while no row is current leaves the drumset as it is, when
the stored shortcut of the row is one the shortcut box can show. -/
theorem selectionChanged_fresh_drumset (env : Env) (s : Dialog) (q : Pitch)
    (hcur : s.currentItem = none) (hok : ShownShortcut (s.m_editedDrumset q).shortcut) :
    (selectionChanged env (some q) s).m_editedDrumset = s.m_editedDrumset := by
  rw [selectionChanged_none_prev env s (some q) hcur]
  dsimp only
  rw [populate_eq env q { s with currentItem := some q } rfl hok]
  rfl

/-- The entry a change of selection away from row `p` leaves for `p`, when the
shortcut stored for the new row has an index in the shortcut box. -/
theorem selectionChanged_prev_entry (env : Env) (s : Dialog) (p : Pitch) (q : Option Pitch)
    (hcur : s.currentItem = some p) (hq : q ≠ some p)
    (hqs : ∀ r : Pitch, q = some r → IndexedShortcut (s.m_editedDrumset r).shortcut) :
    (selectionChanged env q s).m_editedDrumset p =
      previousEntry env s (s.m_editedDrumset p) := by
  rw [selectionChanged_some_prev env s p q hcur]
  have hc := commitPrevious_drumset env p { s with currentItem := q }
  cases q with
  | none =>
    dsimp only
    rw [hc.1, Drumset.set_same]
    rfl
  | some r =>
    dsimp only
    have hrp : p ≠ r := fun h => hq (by rw [h])
    have hin : IndexedShortcut
        ((commitPrevious env p { s with currentItem := some r }).m_editedDrumset r).shortcut := by
      rw [hc.1, Drumset.set_other _ _ _ _ (Ne.symm hrp)]
      exact hqs r rfl
    rw [populate_other env r p _ hc.2 hrp hin, hc.1, Drumset.set_same]
    rfl

/-- The entry `valueChanged` leaves for the selected row. -/
theorem valueChanged_entry (env : Env) (s : Dialog) (p : Pitch)
    (hcur : s.currentItem = some p) :
    (valueChanged env s).m_editedDrumset p =
      if s.customGbox = true ∨ s.noteHead = findData noteHeadNames .HEAD_CUSTOM then
        customEntry env s (s.m_editedDrumset p)
      else presetEntry s (s.m_editedDrumset p) := by
  by_cases hcond : s.customGbox = true ∨ s.noteHead = findData noteHeadNames .HEAD_CUSTOM
  · rw [if_pos hcond]
    rcases valueChanged_custom env s p hcur hcond with h | h <;> rw [h] <;>
      exact Drumset.set_same _ _ _
  · rw [if_neg hcond]
    have hc : s.customGbox = false := by
      cases hb : s.customGbox
      · rfl
      · exact absurd (Or.inl hb) hcond
    rw [valueChanged_preset env s p hcur hc (fun h => hcond (Or.inr h))]
    exact Drumset.set_same _ _ _

theorem currentData_custom (i : Int)
    (h : i = findData noteHeadNames .HEAD_CUSTOM) :
    currentData noteHeadNames i = some .HEAD_CUSTOM := by
  rw [h]; decide

theorem selectionChanged_select (env : Env) (s : Dialog) (p : Pitch)
    (hne : s.currentItem ≠ some p) :
    ∃ s1 : Dialog, s1.m_editedDrumset p = s.m_editedDrumset p ∧
      s1.customGbox = s.customGbox ∧ s1.currentItem = some p ∧
      selectionChanged env (some p) s = populate env p s1 := by
  cases hprev : s.currentItem with
  | none =>
    exact ⟨{ s with currentItem := some p }, rfl, rfl, rfl,
      selectionChanged_none_prev env s (some p) hprev⟩
  | some r =>
    have hrp : p ≠ r := fun h => hne (by rw [hprev, h])
    have hc := commitPrevious_drumset env r { s with currentItem := some p }
    have hd : (commitPrevious env r { s with currentItem := some p }).m_editedDrumset p =
        s.m_editedDrumset p := by
      rw [hc.1]; exact Drumset.set_other _ _ _ _ hrp
    refine ⟨commitPrevious env r { s with currentItem := some p }, hd, ?_, hc.2,
      selectionChanged_some_prev env s r (some p) hprev⟩
    rw [commitPrevious_eq]

/-- Selecting row `p`, which was not current, fills the controls from the
stored entry of `p`: the result is the closed form of `populate` over a dialog
that has the entry of `p` and the custom box as before. -/
theorem selectionChanged_populated (env : Env) (s : Dialog) (p : Pitch)
    (hne : s.currentItem ≠ some p) (hsc : ShownShortcut (s.m_editedDrumset p).shortcut) :
    ∃ s1 : Dialog, s1.m_editedDrumset p = s.m_editedDrumset p ∧
      s1.customGbox = s.customGbox ∧ s1.currentItem = some p ∧
      selectionChanged env (some p) s = populateResult env p s1 := by
  cases hprev : s.currentItem with
  | none =>
    refine ⟨{ s with currentItem := some p }, rfl, rfl, rfl, ?_⟩
    rw [selectionChanged_none_prev env s (some p) hprev]
    exact populate_eq env p _ rfl hsc
  | some r =>
    have hrp : p ≠ r := fun h => hne (by rw [hprev, h])
    have hc := commitPrevious_drumset env r { s with currentItem := some p }
    have hd : (commitPrevious env r { s with currentItem := some p }).m_editedDrumset p =
        s.m_editedDrumset p := by
      rw [hc.1]; exact Drumset.set_other _ _ _ _ hrp
    refine ⟨commitPrevious env r { s with currentItem := some p }, hd, ?_, hc.2, ?_⟩
    · rw [commitPrevious_eq]
    · rw [selectionChanged_some_prev env s r (some p) hprev]
      exact populate_eq env p _ hc.2 (by rw [hd]; exact hsc)

theorem isValid_congr (d e : Drumset) (p : Pitch) (h : d p = e p) :
    d.isValid p = e.isValid p := by
  unfold Drumset.isValid
  rw [h]

/-- With row `p` selected in preset mode and the four custom boxes on the
preset glyphs of group `g`, all of them offered, checking the custom box
stores these glyphs as the custom noteheads of `p`. -/
theorem snapshot_core (env : Env) (s : Dialog) (p : Pitch) (g : Group)
    (hcur : s.currentItem = some p) (hc : s.customGbox = false)
    (hb : s.noteHeadBlocked = false)
    (hidx : s.noteHead ≠ findData noteHeadNames .HEAD_CUSTOM)
    (hoff : ∀ t : NoteHeadType, env.noteHead g t ∈ env.resNoteheads)
    (hw : s.wholeCmb = comboIndex env.resNoteheads.length
      (findData env.resNoteheads (env.noteHead g .HEAD_WHOLE)))
    (hh : s.halfCmb = comboIndex env.resNoteheads.length
      (findData env.resNoteheads (env.noteHead g .HEAD_HALF)))
    (hq : s.quarterCmb = comboIndex env.resNoteheads.length
      (findData env.resNoteheads (env.noteHead g .HEAD_QUARTER)))
    (hd : s.doubleWholeCmb = comboIndex env.resNoteheads.length
      (findData env.resNoteheads (env.noteHead g .HEAD_BREVIS))) :
    ((toggleCustom env true s).m_editedDrumset p).notehead = .HEAD_CUSTOM ∧
    ∀ t : NoteHeadType,
      ((toggleCustom env true s).m_editedDrumset p).noteheads.get t = env.noteHead g t := by
  rw [toggleCustom_on env s p hcur hc hb, if_neg hidx]
  simp only [customResult, Drumset.set_same, customEntry]
  refine ⟨trivial, ?_⟩
  intro t
  cases t
  · show comboSym env s.wholeCmb = _
    rw [hw]; exact comboSym_findData env _ (hoff _)
  · show comboSym env s.halfCmb = _
    rw [hh]; exact comboSym_findData env _ (hoff _)
  · show comboSym env s.quarterCmb = _
    rw [hq]; exact comboSym_findData env _ (hoff _)
  · show comboSym env s.doubleWholeCmb = _
    rw [hd]; exact comboSym_findData env _ (hoff _)

theorem noteHead_index_of_group (g : Group) (hg : g ∈ noteHeadNames)
    (hgc : g ≠ .HEAD_CUSTOM) :
    comboIndex noteHeadNames.length (findData noteHeadNames g) ≠
      findData noteHeadNames .HEAD_CUSTOM := by
  intro h
  have h1 := currentData_findData_mem noteHeadNames g hg
  rw [h, currentData_custom _ rfl] at h1
  exact hgc (Option.some.inj h1).symm

theorem populateResult_preset (env : Env) (p : Pitch) (s1 : Dialog) (g : Group)
    (hg : g ∈ noteHeadNames) (hgc : g ≠ .HEAD_CUSTOM)
    (hnh : (s1.m_editedDrumset p).notehead = g) :
    (populateResult env p s1).wholeCmb = comboIndex env.resNoteheads.length
      (findData env.resNoteheads (env.noteHead g .HEAD_WHOLE)) ∧
    (populateResult env p s1).halfCmb = comboIndex env.resNoteheads.length
      (findData env.resNoteheads (env.noteHead g .HEAD_HALF)) ∧
    (populateResult env p s1).quarterCmb = comboIndex env.resNoteheads.length
      (findData env.resNoteheads (env.noteHead g .HEAD_QUARTER)) ∧
    (populateResult env p s1).doubleWholeCmb = comboIndex env.resNoteheads.length
      (findData env.resNoteheads (env.noteHead g .HEAD_BREVIS)) ∧
    (populateResult env p s1).noteHead =
      comboIndex noteHeadNames.length (findData noteHeadNames g) ∧
    (populateResult env p s1).customGbox =
      (if s1.m_editedDrumset.isValid p then false else s1.customGbox) := by
  have hinv : g ≠ .HEAD_INVALID := by
    rintro rfl
    revert hg
    decide
  simp [populateResult, hnh, hgc, hinv]

theorem drum_ext (a b : DrumInstrument) (h1 : a.name = b.name)
    (h2 : a.notehead = b.notehead) (h3 : a.noteheads = b.noteheads) (h4 : a.line = b.line)
    (h5 : a.voice = b.voice) (h6 : a.stemDirection = b.stemDirection)
    (h7 : a.shortcut = b.shortcut) : a = b := by
  cases a; cases b; simp_all

theorem noteHeads_ext (a b : NoteHeads) (h : ∀ t, a.get t = b.get t) : a = b := by
  have h1 := h .HEAD_WHOLE
  have h2 := h .HEAD_HALF
  have h3 := h .HEAD_QUARTER
  have h4 := h .HEAD_BREVIS
  cases a; cases b
  simp only [NoteHeads.get] at h1 h2 h3 h4
  simp_all

theorem spinValue_of_mem (env : Env) (v : Int) (h1 : env.staffLineMin ≤ v)
    (h2 : v ≤ env.staffLineMax) : spinValue env v = v := by
  unfold spinValue
  rw [min_eq_right h2, max_eq_right h1]

theorem comboIndex_of_mem (n : Nat) (v : Int) (h1 : 0 ≤ v) (h2 : v < n) :
    comboIndex n v = v := by
  unfold comboIndex
  rw [if_pos ⟨h1, h2⟩]

theorem populateResult_notehead (env : Env) (p : Pitch) (s1 : Dialog)
    (hmode : s1.m_editedDrumset.isValid p = true ∨ s1.customGbox = false) :
    (previousEntry env (populateResult env p s1) (s1.m_editedDrumset p)).notehead =
      (s1.m_editedDrumset p).notehead := by
  have hdat : (currentData noteHeadNames
      (comboIndex noteHeadNames.length
        (findData noteHeadNames (s1.m_editedDrumset p).notehead))).getD
      (s1.m_editedDrumset p).notehead = (s1.m_editedDrumset p).notehead := by
    by_cases hm : (s1.m_editedDrumset p).notehead ∈ noteHeadNames
    · rw [currentData_findData_mem _ _ hm]; rfl
    · rw [currentData_findData_not_mem _ _ hm]; rfl
  by_cases hcust : (s1.m_editedDrumset p).notehead = .HEAD_CUSTOM
  · rcases hmode with hv | hc
    · simp [previousEntry, populateResult, hv, hcust]
    · by_cases hv : s1.m_editedDrumset.isValid p = true
      · simp [previousEntry, populateResult, hv, hcust]
      · simp only [previousEntry, populateResult, hv, hc, hdat]
        simp
  · by_cases hv : s1.m_editedDrumset.isValid p = true
    · simp only [previousEntry, populateResult, hv, hcust, hdat]
      simp
    · have hc : s1.customGbox = false := hmode.resolve_left hv
      simp only [previousEntry, populateResult, hv, hc, hdat]
      simp

theorem populateResult_noteheads (env : Env) (p : Pitch) (s1 : Dialog)
    (hmode : s1.m_editedDrumset.isValid p = true ∨ s1.customGbox = false)
    (hglyph : (s1.m_editedDrumset p).notehead = .HEAD_CUSTOM →
      ∀ t : NoteHeadType, (s1.m_editedDrumset p).noteheads.get t ∈ env.resNoteheads) :
    (previousEntry env (populateResult env p s1) (s1.m_editedDrumset p)).noteheads =
      (s1.m_editedDrumset p).noteheads := by
  by_cases hcust : (s1.m_editedDrumset p).notehead = .HEAD_CUSTOM
  · by_cases hv : s1.m_editedDrumset.isValid p = true
    · apply noteHeads_ext
      intro t
      have hg := hglyph hcust
      cases t <;>
        simp [previousEntry, populateResult, hv, hcust, NoteHeads.get, comboSym_findData,
          hg]
      · exact comboSym_findData env _ (hg .HEAD_WHOLE)
      · exact comboSym_findData env _ (hg .HEAD_HALF)
      · exact comboSym_findData env _ (hg .HEAD_QUARTER)
      · exact comboSym_findData env _ (hg .HEAD_BREVIS)
    · have hc : s1.customGbox = false := hmode.resolve_left hv
      simp [previousEntry, populateResult, hv, hc]
  · by_cases hv : s1.m_editedDrumset.isValid p = true
    · simp [previousEntry, populateResult, hv, hcust]
    · have hc : s1.customGbox = false := hmode.resolve_left hv
      simp [previousEntry, populateResult, hv, hc]

/-- Selecting the unused row `p` while the custom box is checked and moving
the selection away writes the group HEAD_CUSTOM into the entry of `p`. -/
theorem navigation_unused_custom (env : Env) (s : Dialog) (p : Pitch) (q : Option Pitch)
    (hne : s.currentItem ≠ some p) (hq : q ≠ some p)
    (hqs : ∀ r : Pitch, q = some r →
      IndexedShortcut ((selectionChanged env (some p) s).m_editedDrumset r).shortcut)
    (hsc : ShownShortcut (s.m_editedDrumset p).shortcut)
    (hv : s.m_editedDrumset.isValid p = false) (hc : s.customGbox = true) :
    ((selectionChanged env q (selectionChanged env (some p) s)).m_editedDrumset p).notehead =
      .HEAD_CUSTOM := by
  obtain ⟨s1, hd1, hc1, hcur1, heq⟩ := selectionChanged_populated env s p hne hsc
  rw [heq] at hqs
  rw [heq, selectionChanged_prev_entry env (populateResult env p s1) p q hcur1 hq hqs]
  have hv1 : s1.m_editedDrumset.isValid p = false := by
    rw [isValid_congr _ _ p hd1]; exact hv
  simp [previousEntry, populateResult, hv1, hc1, hc]

/-- Round trip through a drumset file into a dialog with no row selected:
`save` on an opened file writes a text; for the drumset it serialises, `load`
of that text raises no version prompt and yields a drumset whose entry for
every valid pitch is field-wise equal to the saved entry, and whose other
pitches are unused. -/
theorem save_load_unselected (env : Env) (fname fname2 : String)
    (hf : fname.isEmpty = false) (hf2 : fname2.isEmpty = false) (writeOk : Bool)
    (s t : Dialog) (answer : Nat → Button) (ht : t.currentItem = none) :
    ∃ text : List Token,
      (save env fname true writeOk s).2 = some text ∧
      (s.currentItem = none →
        (save env fname true writeOk s).1.m_editedDrumset = s.m_editedDrumset) ∧
      (load env fname2 (some text) answer t).warnings = t.warnings ∧
      ∀ p : Pitch,
        ((save env fname true writeOk s).1.m_editedDrumset.isValid p = true →
          SameEntry ((load env fname2 (some text) answer t).m_editedDrumset p)
            ((save env fname true writeOk s).1.m_editedDrumset p)) ∧
        ((save env fname true writeOk s).1.m_editedDrumset.isValid p = false →
          (load env fname2 (some text) answer t).m_editedDrumset.isValid p = false ∧
          (load env fname2 (some text) answer t).m_editedDrumset p = unusedDrum) := by
  obtain ⟨h2, h1⟩ := save_opened env fname hf writeOk s
  refine ⟨_, h2, ?_, ?_, ?_⟩
  · intro hcur
    rw [h1, valueChanged_none env s hcur]
  · rw [load_fileOf env fname2 hf2]
    unfold updatePitchesList selectionChanged itemChanged
    simp only [ht]
  · intro p
    rw [h1, load_fileOf env fname2 hf2, updatePitchesList_drumset_none env
      { t with
        m_editedDrumset :=
          (valueChanged env s).m_editedDrumset.save.foldl Drumset.load
            t.m_editedDrumset.clear } ht]
    have hl := save_load_apply t.m_editedDrumset (valueChanged env s).m_editedDrumset p
    dsimp only
    constructor
    · intro hv
      rw [hl, if_pos hv]
      exact sameEntry_loadedEntry _ _ _
    · intro hv
      have hn : ¬ (valueChanged env s).m_editedDrumset.isValid p = true := by simp [hv]
      rw [Drumset.isValid, hl, if_neg hn]
      exact ⟨rfl, rfl⟩

/-- The value-changed path with no current item in the `noteHead` box: pitch
38 has the group HEAD_SOL, which the box does not offer; moving the selection
away keeps HEAD_SOL for pitch 38 (the write is guarded by
`currData.isValid()`), while `valueChanged`, which has no such guard, stores
`Group(0)`, HEAD_NORMAL. -/
theorem valueChanged_without_item :
    solDialog.currentItem = some 38 ∧
    ((selectionChanged sampleEnv none solDialog).m_editedDrumset 38).notehead = .HEAD_SOL ∧
    ((valueChanged sampleEnv solDialog).m_editedDrumset 38).notehead = .HEAD_NORMAL := by
  refine ⟨rfl, ?_, ?_⟩
  · rw [selectionChanged_prev_entry sampleEnv solDialog 38 none rfl (by decide)
      (fun r hr => nomatch hr)]
    decide
  · rw [valueChanged_entry sampleEnv solDialog 38 rfl]
    decide

/-! ## C1: shortcut assignment -/

/-- C1 (as amended).  With row `p` selected and the shortcut box showing the
letter of index `k` (A..G): if `p` already holds that letter the drumset is
left as it is; if `p` does not hold it yet, or no other pitch holds it, then
afterwards `p` holds the letter, no other pitch holds it, and every other
pitch that held it has been cleared to none. -/
theorem shortcutChanged_assign_evict (env : Env) (s : Dialog) (p : Pitch) (k : Fin 7)
    (hcur : s.currentItem = some p) (hidx : s.shortcut = (k.val : Int)) :
    ((s.m_editedDrumset p).shortcut = letterAt env (k.val : Int) →
        (shortcutChanged env s).m_editedDrumset = s.m_editedDrumset) ∧
    (((s.m_editedDrumset p).shortcut ≠ letterAt env (k.val : Int) ∨
        ∀ q : Pitch, q ≠ p → (s.m_editedDrumset q).shortcut ≠ letterAt env (k.val : Int)) →
      ((shortcutChanged env s).m_editedDrumset p).shortcut = letterAt env (k.val : Int) ∧
      (∀ q : Pitch, q ≠ p →
        ((shortcutChanged env s).m_editedDrumset q).shortcut ≠ letterAt env (k.val : Int)) ∧
      (∀ q : Pitch, q ≠ p → (s.m_editedDrumset q).shortcut = letterAt env (k.val : Int) →
        ((shortcutChanged env s).m_editedDrumset q).shortcut = Char.ofNat 0)) := by
  have htext : shortcutText s.shortcut = qcharString (letterAt env (k.val : Int)) := by
    rw [hidx]; exact shortcutText_letter env k
  have hk7 : ¬ s.shortcut = 7 := by
    rw [hidx]; have := k.isLt; omega
  have hsame : (s.m_editedDrumset p).shortcut = letterAt env (k.val : Int) →
      (shortcutChanged env s).m_editedDrumset = s.m_editedDrumset := by
    intro h
    apply shortcutChanged_drumset_of_not_guard s p hcur
    rw [htext, h]; simp
  refine ⟨hsame, ?_⟩
  intro h
  by_cases hp : (s.m_editedDrumset p).shortcut = letterAt env (k.val : Int)
  · rcases h with h | h
    · exact absurd hp h
    · rw [hsame hp]
      exact ⟨hp, h, fun q hq hqs => absurd hqs (h q hq)⟩
  · have hg : qcharString (s.m_editedDrumset p).shortcut ≠ shortcutText s.shortcut := by
      rw [htext]; intro hc; exact hp ((qcharString_inj _ _).1 hc)
    have hsc : (if s.shortcut = 7 then Char.ofNat 0 else letterAt env s.shortcut) =
        letterAt env (k.val : Int) := by
      rw [if_neg hk7, hidx]
    rw [shortcutChanged_drumset_of_guard s p hcur hg, hsc]
    refine ⟨by rw [Drumset.set_same], ?_, ?_⟩
    · intro q hq
      rw [Drumset.set_other _ _ _ _ hq, clearConflicts_apply]
      by_cases hs : (s.m_editedDrumset q).shortcut = letterAt env (k.val : Int)
      · simp only [hq, hs, ne_eq, not_false_eq_true, and_self, if_true]
        exact fun hc => letterAt_ne_zero k hc.symm
      · simp [hq, hs]
    · intro q hq hs
      rw [Drumset.set_other _ _ _ _ hq, clearConflicts_apply]
      simp [hq, hs]

/-- Witness for C1: on the drumset with the snare on 38 holding A, selecting
pitch 36 and choosing A gives A to 36 and clears 38. -/
theorem shortcutChanged_assign_evict_witness :
    ((shortcutChanged sampleEnv
        { freshDialog snareDrumset with currentItem := some 36, shortcut := 0 }
      ).m_editedDrumset 36).shortcut = 'A' ∧
    ((shortcutChanged sampleEnv
        { freshDialog snareDrumset with currentItem := some 36, shortcut := 0 }
      ).m_editedDrumset 38).shortcut = Char.ofNat 0 := by
  have h := (shortcutChanged_assign_evict sampleEnv
    { freshDialog snareDrumset with currentItem := some 36, shortcut := 0 } 36 0 rfl rfl).2
    (Or.inl (by decide))
  exact ⟨h.1, h.2.2 38 (by decide) (by decide)⟩

/-- Counterexample to C1 as stated: pitches 36 and 38 both hold A, row 36 is
selected and the shortcut box shows A; after `shortcutChanged` pitch 38, which
is not the selected pitch, still holds A. -/
theorem shortcutChanged_keeps_other_holder :
    ({ freshDialog duplicateDrumset with currentItem := some 36, shortcut := 0 } :
        Dialog).currentItem = some 36 ∧
    letterAt sampleEnv 0 = 'A' ∧
    ((shortcutChanged sampleEnv
        { freshDialog duplicateDrumset with currentItem := some 36, shortcut := 0 }
      ).m_editedDrumset 36).shortcut = 'A' ∧
    ((shortcutChanged sampleEnv
        { freshDialog duplicateDrumset with currentItem := some 36, shortcut := 0 }
      ).m_editedDrumset 38).shortcut = 'A' := by
  refine ⟨rfl, rfl, ?_, ?_⟩ <;>
  · rw [shortcutChanged_drumset_of_not_guard _ 36 rfl (by decide)]
    decide

/-! ## C2: uniqueness over sequences of assignments -/

/-- C2.  Starting from a drumset in which no letter is held by two pitches,
after each call of a sequence of shortcut assignments (any selected pitch, any
choice among A..G and none) no letter is held by two pitches. -/
theorem shortcutTrace_unique (env : Env) (ops : List (Pitch × Fin 8)) (s : Dialog)
    (hu : UniqueShortcuts s.m_editedDrumset) :
    ∀ d ∈ shortcutTrace env ops s, UniqueShortcuts d := by
  induction ops generalizing s with
  | nil => intro d hd; simp [shortcutTrace] at hd
  | cons op rest ih =>
    intro d hd
    obtain ⟨p, k⟩ := op
    have hstep : UniqueShortcuts (assignShortcut env p k s).m_editedDrumset :=
      shortcutChanged_unique _ hu
    simp only [shortcutTrace, List.mem_cons] at hd
    rcases hd with rfl | hd
    · exact hstep
    · exact ih _ hstep d hd

/-- Witness for C2: from the empty drumset, giving A to pitch 38 and then to
pitch 36 keeps the letters unique after both calls. -/
theorem shortcutTrace_unique_witness :
    UniqueShortcuts (freshDialog emptyDrumset).m_editedDrumset ∧
    ∀ d ∈ shortcutTrace sampleEnv [(38, 0), (36, 0)] (freshDialog emptyDrumset),
      UniqueShortcuts d :=
  ⟨unique_emptyDrumset,
    shortcutTrace_unique sampleEnv [(38, 0), (36, 0)] (freshDialog emptyDrumset)
      unique_emptyDrumset⟩

/-! ## C3: uniqueness under the commits -/

/-- C3 (as amended).  Let no letter be held by two pitches, and let the
shortcut box show index `k` (A..G or none) whose letter is held by no pitch
other than `p`.  Then `itemChanged` with previous row `p` (for any new row)
and `valueChanged` with `p` selected each leave a drumset in which no letter
is held by two pitches. -/
theorem commits_keep_unique (env : Env) (s : Dialog) (p : Pitch) (k : Fin 8)
    (hk : s.shortcut = (k.val : Int)) (hu : UniqueShortcuts s.m_editedDrumset)
    (hfree : ∀ q : Pitch, q ≠ p →
      (s.m_editedDrumset q).shortcut = shortcutLetter env (k.val : Int) →
      shortcutLetter env (k.val : Int) = Char.ofNat 0) :
    (∀ current : Option Pitch,
      UniqueShortcuts (itemChanged env current (some p) s).m_editedDrumset) ∧
    (s.currentItem = some p → UniqueShortcuts (valueChanged env s).m_editedDrumset) := by
  constructor
  · intro current
    have hc : UniqueShortcuts (commitPrevious env p s).m_editedDrumset := by
      rw [commitPrevious_eq]
      apply unique_set _ _ _ hu
      intro q hq
      simpa [previousEntry, hk] using hfree q hq
    unfold itemChanged
    cases current with
    | none => exact hc
    | some c => exact (populate_silent env c _).2.2.2.1 hc
  · intro hcur
    obtain ⟨e, he, hd⟩ := valueChanged_drumset env s p hcur
    rw [hd]
    apply unique_set _ _ _ hu
    intro q hq
    rw [he, hk, committedShortcut_fin]
    exact hfree q hq

/-- Witness for C3: with the snare on 38 holding A, committing shortcut B
into pitch 36 through either path keeps the letters unique. -/
theorem commits_keep_unique_witness :
    (∀ current : Option Pitch,
      UniqueShortcuts
        (itemChanged sampleEnv current (some 36)
          { freshDialog snareDrumset with currentItem := some 36, shortcut := 1 }
        ).m_editedDrumset) ∧
    UniqueShortcuts
      (valueChanged sampleEnv
        { freshDialog snareDrumset with currentItem := some 36, shortcut := 1 }
      ).m_editedDrumset := by
  have hu : UniqueShortcuts snareDrumset :=
    unique_set _ _ _ unique_emptyDrumset
      (fun _ _ h => absurd (show Char.ofNat 0 = 'A' from h) (by decide))
  have h := commits_keep_unique sampleEnv
    { freshDialog snareDrumset with currentItem := some 36, shortcut := 1 } 36 1 rfl hu
    (by
      intro q hq h
      exfalso
      by_cases h38 : q = 38
      · subst h38; revert h; decide
      · have : (snareDrumset q).shortcut = Char.ofNat 0 := by
          simp [snareDrumset, Drumset.set, h38, emptyDrumset, unusedDrum]
        rw [show ({ freshDialog snareDrumset with currentItem := some 36, shortcut := 1 } :
          Dialog).m_editedDrumset = snareDrumset from rfl, this] at h
        revert h; decide)
  exact ⟨h.1, h.2 rfl⟩

/-- Counterexample to C3 as stated: the drumset holds A on pitch 38 only and
the shortcut box shows A; committing into pitch 36, through `itemChanged` with
previous row 36 or through `valueChanged` with row 36 selected, leaves A on
both 36 and 38. -/
theorem commits_duplicate_shortcut :
    UniqueShortcuts snareDrumset ∧
    ((itemChanged sampleEnv none (some 36)
        { freshDialog snareDrumset with currentItem := none, shortcut := 0 }
      ).m_editedDrumset 36).shortcut = 'A' ∧
    ((itemChanged sampleEnv none (some 36)
        { freshDialog snareDrumset with currentItem := none, shortcut := 0 }
      ).m_editedDrumset 38).shortcut = 'A' ∧
    ((valueChanged sampleEnv
        { freshDialog snareDrumset with currentItem := some 36, shortcut := 0 }
      ).m_editedDrumset 36).shortcut = 'A' ∧
    ((valueChanged sampleEnv
        { freshDialog snareDrumset with currentItem := some 36, shortcut := 0 }
      ).m_editedDrumset 38).shortcut = 'A' := by
  refine ⟨unique_set _ _ _ unique_emptyDrumset
    (fun _ _ h => absurd (show Char.ofNat 0 = 'A' from h) (by decide)), ?_, ?_, ?_, ?_⟩
  · simp only [itemChanged, commitPrevious_eq]; decide
  · simp only [itemChanged, commitPrevious_eq]; decide
  · rw [valueChanged_preset _ _ 36 rfl rfl (by decide)]; decide
  · rw [valueChanged_preset _ _ 36 rfl rfl (by decide)]; decide

/-! ## C4: round trip through a drumset file -/

/-- C4 (the code at the failing input).  The drumset with the snare on pitch
38 is saved with no row selected, which writes the text of that drumset.
Loaded into a dialog with no row selected, the text gives the snare back on
pitch 38.  Loaded into `staleDialog`, where row 38 is selected, `load` ends in
`updatePitchesList`, whose `pitchList->clear()` sends `currentItemChanged` to
`itemChanged`: the controls are written over the entry just read, and pitch 38
has the name "Stale", staff line 9 and shortcut B instead of the saved
values. -/
theorem load_commits_stale_row :
    (save sampleEnv "kit.drm" true true (freshDialog snareDrumset)).2 =
      some (fileOf sampleEnv snareDrumset) ∧
    snareDrumset.isValid 38 = true ∧
    SameEntry
      ((load sampleEnv "kit.drm" (some (fileOf sampleEnv snareDrumset))
        (fun _ => Button.Cancel) (freshDialog emptyDrumset)).m_editedDrumset 38)
      (snareDrumset 38) ∧
    ((load sampleEnv "kit.drm" (some (fileOf sampleEnv snareDrumset))
      (fun _ => Button.Cancel) staleDialog).m_editedDrumset 38).name = "Stale" ∧
    ((load sampleEnv "kit.drm" (some (fileOf sampleEnv snareDrumset))
      (fun _ => Button.Cancel) staleDialog).m_editedDrumset 38).line = 9 ∧
    ((load sampleEnv "kit.drm" (some (fileOf sampleEnv snareDrumset))
      (fun _ => Button.Cancel) staleDialog).m_editedDrumset 38).shortcut = 'B' ∧
    (snareDrumset 38).name = "Acoustic Snare" ∧ (snareDrumset 38).line = 2 ∧
    (snareDrumset 38).shortcut = 'A' := by
  have hf : ("kit.drm" : String).isEmpty = false := by decide
  have hstale : (load sampleEnv "kit.drm" (some (fileOf sampleEnv snareDrumset))
      (fun _ => Button.Cancel) staleDialog).m_editedDrumset 38 =
      previousEntry sampleEnv
        { staleDialog with
          m_editedDrumset :=
            snareDrumset.save.foldl Drumset.load staleDialog.m_editedDrumset.clear
          currentItem := none }
        (snareDrumset.save.foldl Drumset.load staleDialog.m_editedDrumset.clear 38) := by
    rw [load_fileOf sampleEnv "kit.drm" hf, updatePitchesList_drumset,
      selectionChanged_some_prev sampleEnv _ 38 none rfl]
    dsimp only
    rw [(commitPrevious_drumset sampleEnv 38 _).1, Drumset.set_same]
  refine ⟨?_, by decide, ?_, ?_, ?_, ?_, by decide, by decide, by decide⟩
  · rw [(save_opened sampleEnv "kit.drm" hf true (freshDialog snareDrumset)).1,
      valueChanged_none sampleEnv _ rfl]
    rfl
  · rw [load_fileOf sampleEnv "kit.drm" hf, updatePitchesList_drumset_none sampleEnv _ rfl]
    have hl := save_load_apply (freshDialog emptyDrumset).m_editedDrumset snareDrumset 38
    dsimp only
    rw [hl, if_pos (by decide)]
    exact sameEntry_loadedEntry _ _ _
  · rw [hstale]; rfl
  · rw [hstale]; rfl
  · rw [hstale]; rfl

/-! ## C5: toggling to custom mode and back -/

/-- C5 (as amended).  With a row selected in preset mode, checking the custom
box and unchecking it again, with no change to the four custom boxes, leaves
the entry in preset mode with group HEAD_NORMAL: its glyph for every duration
class is the preset glyph of HEAD_NORMAL, which is the preset resolution of
the original entry when that entry had group HEAD_NORMAL. -/
theorem toggle_custom_and_back (env : Env) (s : Dialog) (p : Pitch)
    (hcur : s.currentItem = some p) (hc : s.customGbox = false)
    (hb : s.noteHeadBlocked = false) (t : NoteHeadType) :
    resolve env ((toggleCustom env false (toggleCustom env true s)).m_editedDrumset p) t =
      env.noteHead .HEAD_NORMAL t ∧
    ((s.m_editedDrumset p).notehead = .HEAD_NORMAL →
      resolve env ((toggleCustom env false (toggleCustom env true s)).m_editedDrumset p) t =
        resolve env (s.m_editedDrumset p) t) := by
  have h := toggle_on_off_entry env s p hcur hc hb
  have h1 : resolve env
      ((toggleCustom env false (toggleCustom env true s)).m_editedDrumset p) t =
      env.noteHead .HEAD_NORMAL t := by
    unfold resolve
    rw [h]
    simp
  refine ⟨h1, ?_⟩
  intro hn
  rw [h1]
  unfold resolve
  rw [hn]
  simp

/-- Witness for C5: the snare of group HEAD_NORMAL on pitch 38, toggled to
custom and back, resolves its quarter glyph as before. -/
theorem toggle_custom_and_back_witness :
    resolve sampleEnv
      ((toggleCustom sampleEnv false
        (toggleCustom sampleEnv true
          { freshDialog snareDrumset with currentItem := some 38 })).m_editedDrumset 38)
      .HEAD_QUARTER =
    resolve sampleEnv (snareDrumset 38) .HEAD_QUARTER :=
  (toggle_custom_and_back sampleEnv
    { freshDialog snareDrumset with currentItem := some 38 } 38 rfl rfl rfl
    .HEAD_QUARTER).2 (by decide)

/-- Counterexample to C5 as stated: pitch 38 is a valid entry in preset mode
with the offered group HEAD_CROSS and the controls show it; after toggling to
custom mode and back the entry has group HEAD_NORMAL and its quarter glyph is
`noteheadBlack`, not the `noteheadXBlack` that HEAD_CROSS resolves to. -/
theorem toggle_loses_group :
    (crossDialog.m_editedDrumset 38).notehead = .HEAD_CROSS ∧
    currentData noteHeadNames crossDialog.noteHead = some .HEAD_CROSS ∧
    resolve sampleEnv (crossDialog.m_editedDrumset 38) .HEAD_QUARTER = "noteheadXBlack" ∧
    ((toggleCustom sampleEnv false (toggleCustom sampleEnv true crossDialog)
      ).m_editedDrumset 38).notehead = .HEAD_NORMAL ∧
    resolve sampleEnv
      ((toggleCustom sampleEnv false (toggleCustom sampleEnv true crossDialog)
        ).m_editedDrumset 38) .HEAD_QUARTER = "noteheadBlack" := by
  have h := toggle_on_off_entry sampleEnv crossDialog 38 rfl rfl rfl
  refine ⟨by decide, by decide, by decide, h, ?_⟩
  unfold resolve
  rw [h]
  decide

/-! ## C6: version mismatch answered with anything but Ignore -/

/-- C6.  For a file whose container `museScore` carries a version other than
`MSC_VERSION`, `load` answered with a button other than Ignore raises the
prompt once and returns with every slot unused: the drumset is the cleared
table, whatever it held before and whatever records the file holds. -/
theorem load_version_cancel (env : Env) (fname : String) (hf : fname.isEmpty = false)
    (e : StartElement) (rest : List Token) (answer : Nat → Button) (s : Dialog)
    (hname : e.name = "museScore") (hver : e.version ≠ env.MSC_VERSION)
    (hans : answer s.warnings ≠ .Ignore) :
    (∀ p : Pitch,
      (load env fname (some (.startElement e :: rest)) answer s).m_editedDrumset p =
        unusedDrum ∧
      (load env fname (some (.startElement e :: rest)) answer s).m_editedDrumset.isValid p =
        false) ∧
    (load env fname (some (.startElement e :: rest)) answer s).m_editedDrumset =
      s.m_editedDrumset.clear ∧
    (load env fname (some (.startElement e :: rest)) answer s).warnings = s.warnings + 1 := by
  have h : load env fname (some (.startElement e :: rest)) answer s =
      { s with m_editedDrumset := s.m_editedDrumset.clear, warnings := s.warnings + 1 } := by
    unfold load
    simp only [hf, Bool.false_eq_true, if_false]
    simp only [loadLoop, hname, if_true, hver, ne_eq, not_false_eq_true, hans]
  rw [h]
  exact ⟨fun p => ⟨rfl, rfl⟩, rfl, rfl⟩

/-- Witness for C6: loading the 2.06 file over the snare drumset and pressing
Cancel leaves pitch 38 unused. -/
theorem load_version_cancel_witness :
    (load sampleEnv "old.drm" (some oldFile) (fun _ => Button.Cancel)
      (freshDialog snareDrumset)).m_editedDrumset 38 = unusedDrum :=
  ((load_version_cancel sampleEnv "old.drm" (by decide)
    { name := "museScore", version := "2.06", record := none } _ (fun _ => Button.Cancel)
    (freshDialog snareDrumset) rfl (by decide) (by decide)).1 38).1

/-! ## C7: a failed open mutates nothing -/

/-- C7.  When the target file cannot be opened, `load` returns the dialog as
it was, and `save` returns with the drumset as it was, pushes nothing and
writes nothing. -/
theorem failed_open_mutates_nothing (env : Env) (fname : String) (answer : Nat → Button)
    (writeOk : Bool) (s : Dialog) :
    load env fname none answer s = s ∧
    (save env fname false writeOk s).1.m_editedDrumset = s.m_editedDrumset ∧
    (save env fname false writeOk s).1.replaced = s.replaced ∧
    (save env fname false writeOk s).2 = none := by
  refine ⟨?_, ?_, ?_, ?_⟩
  · unfold load; split <;> rfl
  · unfold save; split <;> rfl
  · unfold save; split <;> rfl
  · unfold save; split <;> rfl

/-! ## C8: reporting a failed open -/

/-- C8 (the code at the failing input).  With a file name chosen and the file
not opening, `save` issues one error notification and `load` issues none. -/
theorem failed_open_report :
    (save sampleEnv "kit.drm" false true (freshDialog snareDrumset)).1.errors =
      ["Open File"] ∧
    (load sampleEnv "kit.drm" none (fun _ => Button.Cancel)
      (freshDialog snareDrumset)).errors = [] := by
  constructor <;> rfl

/-! ## C9: pushing the drumset -/

/-- C9 (as amended).  `valueChanged` with a row selected ends by calling
`replaceDrumset` with the instrument key of the session and the drumset as the
commit left it (the call is made twice, with the same value, when the body
re-enters itself); `itemChanged` commits the previous row and fills the
controls without calling `replaceDrumset`. -/
theorem commit_push (env : Env) (s : Dialog) :
    (∀ p : Pitch, s.currentItem = some p →
      (valueChanged env s).replaced =
        (s.m_instrumentKey, (valueChanged env s).m_editedDrumset) :: s.replaced ∨
      (valueChanged env s).replaced =
        (s.m_instrumentKey, (valueChanged env s).m_editedDrumset) ::
          (s.m_instrumentKey, (valueChanged env s).m_editedDrumset) :: s.replaced) ∧
    (∀ current previous : Option Pitch,
      (itemChanged env current previous s).replaced = s.replaced) := by
  refine ⟨?_, fun c q => itemChanged_replaced env c q s⟩
  intro p hcur
  by_cases hcond : s.customGbox = true ∨ s.noteHead = findData noteHeadNames .HEAD_CUSTOM
  · rcases valueChanged_custom env s p hcur hcond with h | h
    · left; rw [h]; rfl
    · right; rw [h]; rfl
  · have hc : s.customGbox = false := by
      cases hb : s.customGbox
      · rfl
      · exact absurd (Or.inl hb) hcond
    left
    rw [valueChanged_preset env s p hcur hc (fun h => hcond (Or.inr h))]
    rfl

/-- Witness for C9: `valueChanged` on the cross-snare dialog, row 38
selected, pushes once or twice the drumset it leaves. -/
theorem commit_push_witness :
    (valueChanged sampleEnv crossDialog).replaced =
      ("drums", (valueChanged sampleEnv crossDialog).m_editedDrumset) :: [] ∨
    (valueChanged sampleEnv crossDialog).replaced =
      ("drums", (valueChanged sampleEnv crossDialog).m_editedDrumset) ::
        ("drums", (valueChanged sampleEnv crossDialog).m_editedDrumset) :: [] :=
  (commit_push sampleEnv crossDialog).1 38 rfl

/-- Counterexample to C9 as stated: with row 38 current and the name edited
to "Snare 2", moving the selection to row 36 commits the name into pitch 38
and calls `replaceDrumset` not once. -/
theorem itemChanged_pushes_nothing :
    ((itemChanged sampleEnv (some 36) (some 38)
        { crossDialog with currentItem := some 36, name := "Snare 2" }
      ).m_editedDrumset 38).name = "Snare 2" ∧
    (itemChanged sampleEnv (some 36) (some 38)
        { crossDialog with currentItem := some 36, name := "Snare 2" }).replaced = [] := by
  refine ⟨?_, itemChanged_replaced _ _ _ _⟩
  unfold itemChanged
  dsimp only
  rw [(populate_silent sampleEnv 36 _).2.2.2.2 38 (by rw [commitPrevious_eq]; decide),
    commitPrevious_eq]
  decide

/-! ## C10: the value-changed commit is idempotent -/

/-- C10.  Applying `valueChanged` twice in succession leaves the same drumset
and the same control state as applying it once. -/
theorem valueChanged_idempotent (env : Env) (s : Dialog) :
    SameDrumsetAndControls (valueChanged env (valueChanged env s)) (valueChanged env s) := by
  cases hcur : s.currentItem with
  | none =>
    rw [valueChanged_none env s hcur, valueChanged_none env s hcur]
    exact ⟨rfl, rfl, rfl, rfl, rfl, rfl, rfl, rfl, rfl, rfl, rfl, rfl, rfl, rfl, rfl, rfl,
      rfl, rfl, rfl⟩
  | some p =>
    by_cases hcond : s.customGbox = true ∨ s.noteHead = findData noteHeadNames .HEAD_CUSTOM
    · have ht := valueChanged_custom env s p hcur hcond
      have hcur2 : (valueChanged env s).currentItem = some p := by
        rcases ht with h | h <;> rw [h] <;> exact hcur
      have hidx2 : (valueChanged env s).noteHead = findData noteHeadNames .HEAD_CUSTOM := by
        rcases ht with h | h <;> rw [h] <;> rfl
      rw [valueChanged_custom_settled_eq env (valueChanged env s) p hcur2 hidx2]
      exact customResult_again env p s _ ht
    · have hc : s.customGbox = false := by
        cases hb : s.customGbox
        · rfl
        · exact absurd (Or.inl hb) hcond
      have hidx : s.noteHead ≠ findData noteHeadNames .HEAD_CUSTOM :=
        fun h => hcond (Or.inr h)
      rw [valueChanged_preset env s p hcur hc hidx]
      rw [valueChanged_preset env (presetResult env p s) p hcur hc hidx]
      exact presetResult_again env p s

/-! ## C11: a top-level element other than the container -/

/-- C11 (the code at the failing input).  The top-level element of
`nestedFile` is `kit`, not `museScore`; `load` goes on to the first element
inside it, finds the container and reads its record, so that pitch 38 is
valid afterwards; for `nestedOldFile`, whose nested container has an older
version, the version prompt is raised. -/
theorem load_nested_container :
    ((load sampleEnv "nested.drm" (some nestedFile) (fun _ => Button.Cancel)
      (freshDialog emptyDrumset)).m_editedDrumset 38).name = "Acoustic Snare" ∧
    (load sampleEnv "nested.drm" (some nestedFile) (fun _ => Button.Cancel)
      (freshDialog emptyDrumset)).m_editedDrumset.isValid 38 = true ∧
    (load sampleEnv "nested.drm" (some nestedFile) (fun _ => Button.Cancel)
      (freshDialog emptyDrumset)).warnings = 0 ∧
    (load sampleEnv "nested.drm" (some nestedOldFile) (fun _ => Button.Cancel)
      (freshDialog emptyDrumset)).warnings = 1 := by
  refine ⟨?_, ?_, ?_, ?_⟩ <;> decide

/-! ## C12: an empty name gates the preview -/

/-- C12.  With row `p` selected, `nameChanged` with the empty string leaves
`isValid(p)` false, and `updateExample` then only clears the preview: the
result is the same for every resolver and every set of offered glyphs, and no
fault is raised. -/
theorem empty_name_gates_preview (env : Env) (s : Dialog) (p : Pitch)
    (hcur : s.currentItem = some p) :
    (nameChanged env "" s).m_editedDrumset.isValid p = false ∧
    (∀ env2 : Env,
      updateExample env2 (nameChanged env "" s) =
        { nameChanged env "" s with drumNote := none }) ∧
    (updateExample env (nameChanged env "" s)).drumNote = none ∧
    (updateExample env (nameChanged env "" s)).fault = s.fault := by
  have hn : nameChanged env "" s =
      setEnabledPitchControls false
        (({ s with itemName := fun q => if q = p then "" else s.itemName q } : Dialog).setDrum p
          { s.m_editedDrumset p with name := "" }) := by
    have he : ("" : String).isEmpty = true := rfl
    unfold nameChanged
    simp [hcur, he]
  have hv : (nameChanged env "" s).m_editedDrumset.isValid p = false := by
    have he : ("" : String).isEmpty = true := rfl
    rw [hn]
    simp [setEnabledPitchControls, Dialog.setDrum, Drumset.isValid, he]
  have hc : (nameChanged env "" s).currentItem = some p := by
    rw [hn]; exact hcur
  have hu : ∀ env2 : Env, updateExample env2 (nameChanged env "" s) =
      { nameChanged env "" s with drumNote := none } := by
    intro env2
    rw [updateExample_some env2 _ p hc]
    simp [previewOf, hv]
  refine ⟨hv, hu, ?_, ?_⟩
  · rw [hu]
  · rw [hu, hn]; rfl

/-- Witness for C12: clearing the name of the snare on the selected row 38
makes pitch 38 invalid. -/
theorem empty_name_gates_preview_witness :
    (nameChanged sampleEnv ""
      { freshDialog snareDrumset with currentItem := some 38 }
    ).m_editedDrumset.isValid 38 = false :=
  (empty_name_gates_preview sampleEnv
    { freshDialog snareDrumset with currentItem := some 38 } 38 rfl).1

/-! ## C14: events with no row selected -/

/-- C14 (the code with no row selected).  With no current row, `valueChanged`
and `shortcutChanged` return at once, `nameChanged` changes neither the
drumset nor the list of pushes and raises no fault, and `customQuarterChanged`
reaches `updateExample`, which dereferences the null current row. -/
theorem no_selection_events (env : Env) (n : String) (s : Dialog) :
    valueChanged env { s with currentItem := none } = { s with currentItem := none } ∧
    shortcutChanged env { s with currentItem := none } = { s with currentItem := none } ∧
    (nameChanged env n { s with currentItem := none }).m_editedDrumset = s.m_editedDrumset ∧
    (nameChanged env n { s with currentItem := none }).replaced = s.replaced ∧
    (nameChanged env n { s with currentItem := none }).fault = s.fault ∧
    (customQuarterChanged env { s with currentItem := none }).m_editedDrumset =
      s.m_editedDrumset ∧
    (customQuarterChanged env { s with currentItem := none }).replaced = s.replaced ∧
    (customQuarterChanged env { s with currentItem := none }).fault = true := by
  refine ⟨valueChanged_none env _ rfl, rfl, rfl, rfl, rfl, rfl, rfl, rfl⟩

/-! ## C15: what a change of selection writes -/

/-- C15 (as amended).  Let the shortcut box show index `k` (0..6 for A..G, 7
for none) and let the shortcut stored for the new row `q`, if there is one, be
none or a letter A..G.  After the change of selection to `q`: when there was a
previous row `p`, its entry has name, staff line, voice, stem direction and
shortcut equal to the control values and the entry of every other pitch is
unchanged; when there was no previous row the whole drumset is unchanged. -/
theorem selection_commit_frame (env : Env) (s : Dialog) (q : Option Pitch) (k : Fin 8)
    (hk : s.shortcut = (k.val : Int))
    (hq : ∀ r : Pitch, q = some r → ShownShortcut (s.m_editedDrumset r).shortcut) :
    (∀ p : Pitch, s.currentItem = some p →
      ((selectionChanged env q s).m_editedDrumset p).name = s.name ∧
      ((selectionChanged env q s).m_editedDrumset p).line = s.staffLine ∧
      ((selectionChanged env q s).m_editedDrumset p).voice = s.voice ∧
      ((selectionChanged env q s).m_editedDrumset p).stemDirection = s.stemDirection ∧
      ((selectionChanged env q s).m_editedDrumset p).shortcut =
        shortcutLetter env (k.val : Int) ∧
      ∀ r : Pitch, r ≠ p →
        (selectionChanged env q s).m_editedDrumset r = s.m_editedDrumset r) ∧
    (s.currentItem = none →
      (selectionChanged env q s).m_editedDrumset = s.m_editedDrumset) := by
  constructor
  · intro p hcur
    rw [selectionChanged_drumset env s p q k hk hcur hq]
    refine ⟨?_, ?_, ?_, ?_, ?_, ?_⟩
    · rw [Drumset.set_same]; rfl
    · rw [Drumset.set_same]; rfl
    · rw [Drumset.set_same]; rfl
    · rw [Drumset.set_same]; rfl
    · rw [Drumset.set_same, ← hk]; rfl
    · intro r hr
      exact Drumset.set_other _ _ _ _ hr
  · intro hcur
    rw [selectionChanged_none_prev env s q hcur]
    cases q with
    | none => rfl
    | some r =>
      dsimp only
      rw [populate_eq env r { s with currentItem := some r } rfl (hq r rfl)]
      rfl

/-- Witness for C15: with the snare row 38 current and its name edited to
"Snare 2", moving to the unused row 36 writes the name into pitch 38 and
leaves pitch 36 as it was. -/
theorem selection_commit_frame_witness :
    ((selectionChanged sampleEnv (some 36)
        { snareDialog snareDrumset with name := "Snare 2" }).m_editedDrumset 38).name =
      "Snare 2" ∧
    (selectionChanged sampleEnv (some 36)
        { snareDialog snareDrumset with name := "Snare 2" }).m_editedDrumset 36 =
      snareDrumset 36 := by
  have h := (selection_commit_frame sampleEnv
    { snareDialog snareDrumset with name := "Snare 2" } (some 36) 0 rfl
    (by
      intro r hr
      have h36 : r = 36 := (Option.some.inj hr).symm
      subst h36
      exact shownShortcut_zero)).1 38 rfl
  exact ⟨h.1, h.2.2.2.2.2 36 (by decide)⟩

/-- Counterexample to C15 as stated: the hi-hat on pitch 42 stores the
shortcut H; with the snare row 38 current and the shortcut box on A, moving
the selection to row 42 fills the shortcut box, which runs `shortcutChanged`
and clears the shortcut of pitch 42, a pitch other than the previous row. -/
theorem selection_changes_new_row :
    (snareDialog hiHatDrumset).currentItem = some 38 ∧
    ((snareDialog hiHatDrumset).m_editedDrumset 42).shortcut = 'H' ∧
    ((selectionChanged sampleEnv (some 42) (snareDialog hiHatDrumset)
      ).m_editedDrumset 42).shortcut = Char.ofNat 0 := by
  exact ⟨rfl, by decide,
    selectionChanged_clears_shortcut sampleEnv (snareDialog hiHatDrumset) 38 42 rfl
      (by decide) (by decide) (by decide)⟩

/-! ## C16: the two commit paths -/

/-- C16 (as amended).  Let the shortcut box show index `k` (0..6 for A..G, 7
for none), let the custom box be checked or the `noteHead` box have a current
item other than the item HEAD_CUSTOM, and let the shortcut stored for the new
row, if there is one, be none or a character A..H (so that the shortcut box
has an index for it).  Then committing the controls into `p` by moving the
selection away from row `p` stores the same entry for `p` as `valueChanged`
with row `p` selected. -/
theorem commit_paths_agree (env : Env) (s : Dialog) (p : Pitch) (q : Option Pitch)
    (k : Fin 8) (hk : s.shortcut = (k.val : Int)) (hcur : s.currentItem = some p)
    (hq : q ≠ some p)
    (hqs : ∀ r : Pitch, q = some r → IndexedShortcut (s.m_editedDrumset r).shortcut)
    (hmode : s.customGbox = true ∨
      ∃ g : Group, currentData noteHeadNames s.noteHead = some g ∧ g ≠ .HEAD_CUSTOM) :
    (selectionChanged env q s).m_editedDrumset p = (valueChanged env s).m_editedDrumset p := by
  rw [selectionChanged_prev_entry env s p q hcur hq hqs, valueChanged_entry env s p hcur]
  have hsc : committedShortcut s.shortcut (s.m_editedDrumset p).shortcut =
      shortcutLetter env s.shortcut := by
    rw [hk]; exact committedShortcut_fin k _
  by_cases hc : s.customGbox = true
  · rw [if_pos (Or.inl hc)]
    simp [previousEntry, customEntry, hc, hsc]
  · have hc2 : s.customGbox = false := by simpa using hc
    obtain ⟨g, hg, hgc⟩ := hmode.resolve_left hc
    have hidx : ¬ s.noteHead = findData noteHeadNames .HEAD_CUSTOM := by
      intro h
      rw [currentData_custom _ h] at hg
      exact hgc (Option.some.inj hg).symm
    rw [if_neg (by simp [hc2, hidx])]
    simp [previousEntry, presetEntry, hc2, hsc, hg, groupOfData]

/-- Witness for C16: for the snare dialog with the name edited, both paths
store the same entry for pitch 38. -/
theorem commit_paths_agree_witness :
    (selectionChanged sampleEnv (some 36)
      { snareDialog snareDrumset with name := "Snare 2" }).m_editedDrumset 38 =
    (valueChanged sampleEnv
      { snareDialog snareDrumset with name := "Snare 2" }).m_editedDrumset 38 :=
  commit_paths_agree sampleEnv { snareDialog snareDrumset with name := "Snare 2" } 38
    (some 36) 0 rfl rfl (by decide)
    (by
      intro r hr
      have h36 : r = 36 := (Option.some.inj hr).symm
      subst h36
      exact indexedShortcut_of_shown _ shownShortcut_zero)
    (Or.inr ⟨.HEAD_NORMAL, by decide, by decide⟩)

/-- Counterexample to C16 as stated: row 38 is selected, the custom box is
unchecked and the `noteHead` box is on the item HEAD_CUSTOM, while the four
custom boxes show the glyphs of the normal group.  Moving the selection away
stores the group HEAD_CUSTOM and leaves the custom glyphs of pitch 38 as they
were; `valueChanged` takes the item HEAD_CUSTOM for custom mode and stores the
glyphs of the four custom boxes. -/
theorem commit_paths_differ :
    customItemDialog.currentItem = some 38 ∧ customItemDialog.customGbox = false ∧
    currentData noteHeadNames customItemDialog.noteHead = some .HEAD_CUSTOM ∧
    ((selectionChanged sampleEnv none customItemDialog).m_editedDrumset 38).noteheads.quarter =
      noSym ∧
    ((valueChanged sampleEnv customItemDialog).m_editedDrumset 38).noteheads.quarter =
      "noteheadBlack" := by
  refine ⟨rfl, rfl, by decide, ?_, ?_⟩
  · rw [selectionChanged_prev_entry sampleEnv customItemDialog 38 none rfl (by decide)
      (fun r hr => nomatch hr)]
    decide
  · rw [valueChanged_entry sampleEnv customItemDialog 38 rfl]
    decide

/-! ## C13: entering custom mode -/

/-- C13.  Let `g` be a group offered by the `noteHead` box, other than the
item HEAD_CUSTOM, whose four preset glyphs are among the glyphs the custom
boxes offer.  Whether row `p` was last committed in preset mode with `g`
(`valueChanged`) or last populated in preset mode from an entry with group `g`
(selection of row `p`), checking the custom box with the four custom boxes
untouched stores group HEAD_CUSTOM and, for whole, half, quarter and
double-whole, the preset glyph of `g` as the custom noteheads of `p`. -/
theorem custom_snapshot (env : Env) (p : Pitch) (g : Group) (hg : g ∈ noteHeadNames)
    (hgc : g ≠ .HEAD_CUSTOM)
    (hoff : ∀ t : NoteHeadType, env.noteHead g t ∈ env.resNoteheads) :
    (∀ s : Dialog, s.currentItem = some p → s.customGbox = false →
      s.noteHeadBlocked = false → currentData noteHeadNames s.noteHead = some g →
      ((toggleCustom env true (valueChanged env s)).m_editedDrumset p).notehead =
        .HEAD_CUSTOM ∧
      ∀ t : NoteHeadType,
        ((toggleCustom env true (valueChanged env s)).m_editedDrumset p).noteheads.get t =
          env.noteHead g t) ∧
    (∀ s : Dialog, s.currentItem ≠ some p → (s.m_editedDrumset p).notehead = g →
      (s.m_editedDrumset.isValid p = true ∨ s.customGbox = false) →
      ((toggleCustom env true (selectionChanged env (some p) s)).m_editedDrumset p).notehead =
        .HEAD_CUSTOM ∧
      ∀ t : NoteHeadType,
        ((toggleCustom env true (selectionChanged env (some p) s)).m_editedDrumset p
          ).noteheads.get t = env.noteHead g t) := by
  constructor
  · intro s hcur hc hb hdata
    have hidx : s.noteHead ≠ findData noteHeadNames .HEAD_CUSTOM := by
      intro h
      rw [currentData_custom _ h] at hdata
      exact hgc (Option.some.inj hdata).symm
    rw [valueChanged_preset env s p hcur hc hidx]
    have hgd : groupOfData (currentData noteHeadNames s.noteHead) = g := by
      rw [hdata]; rfl
    apply snapshot_core env (presetResult env p s) p g hcur hc hb hidx hoff
    · show comboIndex _ (findData _ (env.noteHead (groupOfData _) _)) = _
      rw [hgd]
    · show comboIndex _ (findData _ (env.noteHead (groupOfData _) _)) = _
      rw [hgd]
    · show comboIndex _ (findData _ (env.noteHead (groupOfData _) _)) = _
      rw [hgd]
    · show comboIndex _ (findData _ (env.noteHead (groupOfData _) _)) = _
      rw [hgd]
  · intro s hne hnh hmode
    obtain ⟨s1, hd1, hc1, hcur1, heq⟩ := selectionChanged_select env s p hne
    rw [heq]
    have hpre := populateResult_preset env p s1 g hg hgc (by rw [hd1]; exact hnh)
    have hctl := populate_controls env p s1 hcur1
    have hcust : (populate env p s1).customGbox = false := by
      rw [hctl.1, hpre.2.2.2.2.2]
      rw [isValid_congr _ _ p hd1, hc1]
      rcases hmode with hv | hc
      · simp [hv]
      · simp [hc]
    apply snapshot_core env (populate env p s1) p g hctl.2.2.2.2.2.2.1 hcust
      hctl.2.2.2.2.2.2.2 _ hoff (hctl.2.2.1.trans hpre.1) (hctl.2.2.2.1.trans hpre.2.1)
      (hctl.2.2.2.2.1.trans hpre.2.2.1) (hctl.2.2.2.2.2.1.trans hpre.2.2.2.1)
    rw [hctl.2.1, hpre.2.2.2.2.1]
    exact noteHead_index_of_group g hg hgc

/-- Witness for C13: the cross-headed snare on row 38, shown in preset mode,
takes `noteheadXBlack` as its custom quarter notehead when the custom box is
checked. -/
theorem custom_snapshot_witness :
    ((toggleCustom sampleEnv true (valueChanged sampleEnv crossDialog)
      ).m_editedDrumset 38).noteheads.get .HEAD_QUARTER = "noteheadXBlack" :=
  ((custom_snapshot sampleEnv 38 .HEAD_CROSS (by decide) (by decide)
    (by intro t; cases t <;> decide)).1 crossDialog rfl rfl rfl (by decide)).2 .HEAD_QUARTER

/-! ## C17: navigation without edits -/

/-- C17 (as amended).  Let row `p` not be current, and let its stored entry
be one the controls can show: staff line within the range of the spin box,
voice and stem direction among the items of their boxes, shortcut none or a
letter A..G and, for a custom entry, the four glyphs among those offered.  Let
the entry of `p` be valid, or the custom box be unchecked.  Let the shortcut
that the row `q` the selection moves on to stores at that moment, if there is
such a row, be none or a character A..H (so that the shortcut box has an index
for it).  Then selecting row `p` and moving the selection away leaves the
entry of `p` as it was. -/
theorem navigation_lossless (env : Env) (s : Dialog) (p : Pitch) (q : Option Pitch)
    (hne : s.currentItem ≠ some p) (hq : q ≠ some p)
    (hqs : ∀ r : Pitch, q = some r →
      IndexedShortcut ((selectionChanged env (some p) s).m_editedDrumset r).shortcut)
    (hmode : s.m_editedDrumset.isValid p = true ∨ s.customGbox = false)
    (hline : env.staffLineMin ≤ (s.m_editedDrumset p).line ∧
      (s.m_editedDrumset p).line ≤ env.staffLineMax)
    (hvoice : 0 ≤ (s.m_editedDrumset p).voice ∧ (s.m_editedDrumset p).voice < voiceCount)
    (hstem : 0 ≤ (s.m_editedDrumset p).stemDirection ∧
      (s.m_editedDrumset p).stemDirection < stemDirectionCount)
    (hsc : ShownShortcut (s.m_editedDrumset p).shortcut)
    (hglyph : (s.m_editedDrumset p).notehead = .HEAD_CUSTOM →
      ∀ t : NoteHeadType, (s.m_editedDrumset p).noteheads.get t ∈ env.resNoteheads) :
    (selectionChanged env q (selectionChanged env (some p) s)).m_editedDrumset p =
      s.m_editedDrumset p := by
  obtain ⟨s1, hd1, hc1, hcur1, heq⟩ := selectionChanged_populated env s p hne hsc
  rw [heq] at hqs
  rw [heq, selectionChanged_prev_entry env (populateResult env p s1) p q hcur1 hq hqs]
  have hmode1 : s1.m_editedDrumset.isValid p = true ∨ s1.customGbox = false := by
    rw [isValid_congr _ _ p hd1, hc1]; exact hmode
  have hnh := populateResult_notehead env p s1 hmode1
  have hnhs := populateResult_noteheads env p s1 hmode1 (by rw [hd1]; exact hglyph)
  show previousEntry env (populateResult env p s1) (s1.m_editedDrumset p) = _
  rw [← hd1] at hline hvoice hstem hsc
  rw [← hd1]
  apply drum_ext
  · rfl
  · exact hnh
  · exact hnhs
  · exact spinValue_of_mem env _ hline.1 hline.2
  · exact comboIndex_of_mem _ _ hvoice.1 hvoice.2
  · exact comboIndex_of_mem _ _ hstem.1 hstem.2
  · exact shortcutLetter_indexOf _ hsc

/-- Witness for C17: selecting the custom snare on row 38 from a fresh dialog
and moving to row 36 leaves the entry of pitch 38 as it was. -/
theorem navigation_lossless_witness :
    (selectionChanged sampleEnv (some 36)
      (selectionChanged sampleEnv (some 38) (freshDialog customDrumset))
    ).m_editedDrumset 38 = customSnare :=
  navigation_lossless sampleEnv (freshDialog customDrumset) 38 (some 36)
    (by decide) (by decide)
    (by
      intro r hr
      have h36 : r = 36 := (Option.some.inj hr).symm
      subst h36
      rw [selectionChanged_fresh_drumset sampleEnv (freshDialog customDrumset) 38 rfl
        (shownShortcut_letterAt sampleEnv 0)]
      exact indexedShortcut_of_shown _ shownShortcut_zero)
    (Or.inl (by decide)) (by decide) (by decide) (by decide)
    (shownShortcut_letterAt sampleEnv 0) (by intro _ t; cases t <;> decide)

/-- Counterexample to C17 as stated: pitch 36 is unused.  After the custom
snare on row 38 has been selected the custom box is checked; selecting the
unused row 36 leaves it checked, and moving back to row 38 commits group
HEAD_CUSTOM into the entry of pitch 36, which had no group before. -/
theorem navigation_changes_unused :
    (customDrumset 36).notehead = .HEAD_INVALID ∧
    ((selectionChanged sampleEnv (some 38) (freshDialog customDrumset)
      ).m_editedDrumset 36).notehead = .HEAD_INVALID ∧
    ((selectionChanged sampleEnv (some 38)
        (selectionChanged sampleEnv (some 36)
          (selectionChanged sampleEnv (some 38) (freshDialog customDrumset)))
      ).m_editedDrumset 36).notehead = .HEAD_CUSTOM := by
  have h1 : selectionChanged sampleEnv (some 38) (freshDialog customDrumset) =
      populateResult sampleEnv 38 { freshDialog customDrumset with currentItem := some 38 } := by
    rw [selectionChanged_none_prev sampleEnv _ (some 38) rfl]
    exact populate_eq sampleEnv 38 _ rfl (shownShortcut_letterAt sampleEnv 0)
  refine ⟨by decide, ?_, ?_⟩
  · rw [h1]; decide
  · rw [h1]
    refine navigation_unused_custom sampleEnv _ 36 (some 38) (by decide) (by decide) ?_
      shownShortcut_zero (by decide) (by decide)
    intro r hr
    have h38 : r = 38 := (Option.some.inj hr).symm
    subst h38
    rw [selectionChanged_drumset sampleEnv _ 38 (some 36) 0 rfl rfl
      (fun r hr => by
        have h36 : r = 36 := (Option.some.inj hr).symm
        subst h36
        exact shownShortcut_zero), Drumset.set_same]
    exact indexedShortcut_of_shown _ (shownShortcut_letterAt sampleEnv 0)

end Ms
